import Mathlib

/-!
Shallow embedding of the `music_bpm_detection` analysis pipeline
(C++ sources under `src/` and `include/bpm/`) and proofs about it.

Modelling conventions, used throughout:

* C++ `float` / `double` sample values and scores are modelled as exact
  rationals (`ℚ`) where the source only moves data around, and as real
  numbers (`ℝ`) where the source computes with transcendental functions
  (`log`, `exp`, `sin`, `cos`, `sqrt`).  Rounding of IEEE arithmetic is not
  modelled; every concrete input used in a theorem below is chosen so that
  the decisions taken by the source on IEEE floats and by the model on
  exact numbers coincide (the compared quantities are far apart).
* Literal float constants that are not exactly representable in binary
  (`3.14159265358979323846f`, `0.02f`, `0.9f`) are embedded as the exact
  rational value of their IEEE-754 single-precision rounding.
* C++ `std::vector` is a Lean `List`; reads are `getD` (all source reads
  are in bounds); in-place writes are `List.set`.
* Functions that `throw` are embedded as `Option`-valued, `none` on throw.
* `int` arithmetic is embedded on `ℤ`/`ℕ`; `std::max(0, a - b)` on
  non-negative `a b : ℕ` is `ℕ` subtraction.
-/

noncomputable section

/-- `AudioBuffer` from `include/bpm/audio_buffer.h`: interleaved samples,
sample rate and channel count (the optional title is irrelevant here). -/
structure AudioBuffer where
  samples : List ℚ
  sample_rate : ℤ
  channels : ℤ

/-- `AudioBuffer::num_frames` from `src/audio_buffer.cpp`:
`samples.size() / channels`, and 0 when `channels <= 0`. -/
def AudioBuffer.num_frames (a : AudioBuffer) : ℕ :=
  if a.channels ≤ 0 then 0 else a.samples.length / a.channels.toNat

/-- `AudioBuffer::to_mono` from `src/audio_buffer.cpp`: per-frame average of
all channels (accumulated in `double`, exact here). -/
def AudioBuffer.to_mono (a : AudioBuffer) : AudioBuffer :=
  if a.channels ≤ 1 then a
  else
    let frames := a.num_frames
    let ch := a.channels.toNat
    { samples := (List.range frames).map (fun f =>
        (((List.range ch).map (fun c => a.samples.getD (f * ch + c) 0)).sum) / (ch : ℚ)),
      sample_rate := a.sample_rate,
      channels := 1 }

/-- The clamp `std::max(-1.0f, std::min(1.0f, sample))` used by the WAV
writer (`src/wav_writer.cpp`, line 58). -/
def clipSample (x : ℚ) : ℚ := max (-1) (min 1 x)

/-- 16-bit quantisation from `src/wav_writer.cpp` lines 57-60:
`static_cast<std::int16_t>(clamped * 32767.0f)`.  The C++ float-to-integer
cast truncates toward zero; that is `⌊·⌋` for non-negative and `⌈·⌉` for
negative values. -/
def WavWriter.quantize (x : ℚ) : ℤ :=
  let y := clipSample x * 32767
  if 0 ≤ y then ⌊y⌋ else ⌈y⌉

/-- The quantiser the specification describes (`round(x · 32767)` after
clipping), written from the spec's words for comparison with
`WavWriter.quantize`. -/
def WavWriter.quantizeSpec (x : ℚ) : ℤ :=
  round (clipSample x * 32767)

/-- De-duplication that keeps the first occurrence of each value and
preserves the order of first occurrences. -/
def dedupFirst : List ℕ → List ℕ
  | [] => []
  | a :: l => a :: dedupFirst (l.filter (fun b => b != a))
termination_by l => l.length
decreasing_by
  simp only [List.length_cons]
  exact Nat.lt_succ_of_le (List.length_filter_le _ _)

/-- Modelled from the spec: the candidate-period list of
`TempoEstimator::Result`.  The `tempo_estimator.cpp` under `src/` is an
earlier variant whose `Result` has no `candidate_periods` member, yet
`pipeline.cpp` (line 97) iterates `tempo.candidate_periods`; the later
variant that builds the list is missing from `src/`.  Spec §4.2
"Candidates": `{best_lag, 2·best_lag, 3·best_lag, best_lag/2, best_lag/3}`
filtered to `[min_lag, max_lag]`, de-duplicated while preserving that
order (integer lags, integer division). -/
def TempoEstimator.candidatePeriods (best minLag maxLag : ℕ) : List ℕ :=
  dedupFirst (([best, 2 * best, 3 * best, best / 2, best / 3]).filter
    (fun c => decide (minLag ≤ c ∧ c ≤ maxLag)))

/-- The IEEE-754 single-precision value of the source constant
`kPi = 3.14159265358979323846f` (`src/metronome.cpp` line 19). -/
def kPiF : ℝ := 13176795 / 4194304

/-- The IEEE-754 single-precision value of the default click duration
`0.02f` (`include/bpm/metronome.h`). -/
def kClickDurationF : ℝ := 10737418 / 536870912

/-- `Metronome::synth_click` from `src/metronome.cpp`: a decaying sinusoid
of `max(1, round(duration · sample_rate))` samples; empty for non-positive
sample rate or duration. -/
def Metronome.synth_click (sample_rate : ℤ) (click_volume click_freq duration_sec decay : ℝ) :
    List ℝ :=
  if sample_rate ≤ 0 ∨ duration_sec ≤ 0 then []
  else
    let len : ℕ := max 1 (round (duration_sec * (sample_rate : ℝ))).toNat
    (List.range len).map (fun (i : ℕ) =>
      let t : ℝ := (i : ℝ) / (sample_rate : ℝ)
      click_volume * Real.sin (2 * kPiF * click_freq * t) * Real.exp (-decay * t))

/-- One frame of click overlay: `audio.samples[frame * channels + ch] += c`
for every channel (`src/metronome.cpp` lines 58-61). -/
def Metronome.addClickAt (samples : List ℝ) (c : ℝ) (frame channels : ℕ) : List ℝ :=
  (List.range channels).foldl (fun acc ch =>
    acc.set (frame * channels + ch) (acc.getD (frame * channels + ch) 0 + c)) samples

/-- The click window starting at `beat` (`src/metronome.cpp` lines 49-63):
sample `i` of the click is added at frame `beat + i` while that frame is
within the buffer; a beat at or past `frames` adds nothing. -/
def Metronome.addClick (samples : List ℝ) (click : List ℝ) (beat frames channels : ℕ) :
    List ℝ :=
  (List.range click.length).foldl (fun acc i =>
    if beat + i < frames then Metronome.addClickAt acc (click.getD i 0) (beat + i) channels
    else acc) samples

/-- `Metronome::overlay` (single-frequency overload) from
`src/metronome.cpp` lines 30-68.  The function mutates `audio.samples` in
place; here it returns the new sample list (as reals, since the click
samples are transcendental). -/
def Metronome.overlay (audio : AudioBuffer) (beat_samples : List ℕ)
    (click_volume click_freq : ℝ) : List ℝ :=
  let s0 : List ℝ := audio.samples.map (fun q => (q : ℝ))
  if audio.sample_rate ≤ 0 ∨ audio.channels ≤ 0 ∨ audio.samples = [] then s0
  else if beat_samples = [] then s0
  else
    let click := Metronome.synth_click audio.sample_rate click_volume click_freq
      kClickDurationF 200
    if click = [] then s0
    else
      let frames := audio.num_frames
      let channels := audio.channels.toNat
      let added := beat_samples.foldl
        (fun acc beat => Metronome.addClick acc click beat frames channels) s0
      added.map (fun x => max (-1) (min 1 x))

/-! ### MeterDetector (`src/meter_detector.cpp`)

Float constants such as `0.7f`, `0.3f`, `1.1f`, `0.15f` are embedded as the
written decimal rational; the IEEE single-precision value differs by a
relative error below 2^-24 and no theorem below depends on the
difference. -/

/-- `TimeSignature` from `include/bpm/meter_detector.h`. -/
inductive TimeSignature where
  | TWO_FOUR
  | THREE_FOUR
  | FOUR_FOUR
  | SIX_EIGHT
deriving DecidableEq, Repr

/-- `MeterDetector::Result` from `include/bpm/meter_detector.h`. -/
structure MeterResult where
  time_signature : TimeSignature
  beats_per_measure : ℕ
  downbeat_phase : ℕ
  confidence : ℝ
  downbeat_samples : List ℕ

/-- The position of beat `i` within a grouping of `g` at phase `phase`:
`((i - phase) % g + g) % g` on C++ `int`s (`src/meter_detector.cpp`
line 30). -/
def MeterDetector.posOf (g phase i : ℕ) : ℕ :=
  ((((i : ℤ) - (phase : ℤ)) % (g : ℤ) + (g : ℤ)) % (g : ℤ)).toNat

/-- `MeterDetector::accent_score` from `src/meter_detector.cpp` lines
20-60: contrast between the mean onset strength on the hypothesised
downbeat position and the mean on all other positions, normalised by the
overall standard deviation plus `1e-6`. -/
def MeterDetector.accent_score (oab : List ℝ) (g phase : ℕ) : ℝ :=
  let n := oab.length
  if n < g then 0
  else
    let idx := List.range n
    let sumAt := fun p => ((idx.filter (fun i => MeterDetector.posOf g phase i == p)).map
      (fun i => oab.getD i 0)).sum
    let cntAt := fun p => (idx.filter (fun i => MeterDetector.posOf g phase i == p)).length
    if cntAt 0 = 0 then 0
    else
      let downbeat_mean := sumAt 0 / (cntAt 0 : ℝ)
      let others := (List.range g).drop 1
      let other_cnt := (others.map cntAt).sum
      if other_cnt = 0 then 0
      else
        let other_mean := (others.map sumAt).sum / (other_cnt : ℝ)
        let mean := oab.sum / (n : ℝ)
        let var := (oab.map (fun v => (v - mean) ^ 2)).sum / (n : ℝ)
        (downbeat_mean - other_mean) / (Real.sqrt var + 1 / 1000000)

/-- `MeterDetector::beat_autocorrelation` from `src/meter_detector.cpp`
lines 62-82. -/
def MeterDetector.beat_autocorrelation (oab : List ℝ) (lag : ℕ) : ℝ :=
  let n := oab.length
  if lag = 0 ∨ n ≤ lag then 0
  else
    let r0 := (oab.map (fun v => v * v)).sum
    if r0 < 1 / 1000000000000 then 0
    else
      let rl := ((List.range (n - lag)).map (fun i => oab.getD i 0 * oab.getD (i + lag) 0)).sum
      rl * ((n : ℝ) / ((n : ℝ) - (lag : ℝ))) / r0

/-- `MeterDetector::check_compound_subdivision` from
`src/meter_detector.cpp` lines 84-150.  All rounded quantities are
non-negative here, so C++ `std::round` (half away from zero) agrees with
Lean `round` (half up). -/
def MeterDetector.check_compound_subdivision (beats : List ℕ) (onset : List ℝ) (hop : ℕ) :
    Bool :=
  let n := beats.length
  if n < 4 then false
  else
    let onset_len := onset.length
    let contrib := fun i =>
      let s : ℝ := (beats.getD i 0 : ℕ)
      let e : ℝ := (beats.getD (i + 1) 0 : ℕ)
      let span := e - s
      if span ≤ 0 then none
      else
        let f1 : ℤ := round ((s + span / 3) / (hop : ℝ))
        let f2 : ℤ := round ((s + 2 * span / 3) / (hop : ℝ))
        let fb : ℤ := round ((s + span / 2) / (hop : ℝ))
        if (onset_len : ℤ) ≤ f1 ∨ (onset_len : ℤ) ≤ f2 ∨ (onset_len : ℤ) ≤ fb then none
        else if f1 < 0 ∨ f2 < 0 ∨ fb < 0 then none
        else some ((onset.getD f1.toNat 0 + onset.getD f2.toNat 0) / 2, onset.getD fb.toNat 0)
    let cs := (List.range (n - 1)).filterMap contrib
    if cs.length < 4 then false
    else
      let ta := (cs.map Prod.fst).sum / (cs.length : ℝ)
      let ba := (cs.map Prod.snd).sum / (cs.length : ℝ)
      if ta ≤ 0 then false
      else if ba ≤ 0 then true
      else decide (ta > (11 / 10) * ba)

/-- `MeterDetector::extract_downbeats` from `src/meter_detector.cpp` lines
152-161: every `grouping`-th beat starting at `phase`. -/
def MeterDetector.extract_downbeats (beats : List ℕ) (grouping phase : ℕ) : List ℕ :=
  if grouping = 0 then []
  else
    let n := beats.length
    (List.range ((n - phase + grouping - 1) / grouping)).map
      (fun k => beats.getD (phase + k * grouping) 0)

/-- Onset strength sampled at each beat's frame (`src/meter_detector.cpp`
lines 191-198): frame `beat / hop`, 0 when out of range. -/
def MeterDetector.onsetAtBeat (beats : List ℕ) (onset : List ℝ) (hop : ℕ) : List ℝ :=
  beats.map (fun b => if b / hop < onset.length then onset.getD (b / hop) 0 else 0)

/-- `MeterDetector::detect` from `src/meter_detector.cpp` lines 163-360.
The unused `sample_rate` and `bpm` parameters of the source are kept.
State tuples are `(score, grouping, phase, accent)`. -/
def MeterDetector.detect (beats : List ℕ) (onset : List ℝ) (hop : ℕ)
    (sample_rate : ℤ) (bpm : ℝ) : MeterResult :=
  let _ := sample_rate
  let _ := bpm
  if beats.length < 8 then
    { time_signature := TimeSignature.FOUR_FOUR
      beats_per_measure := 4
      downbeat_phase := 0
      confidence := 0
      downbeat_samples := MeterDetector.extract_downbeats beats 4 0 }
  else
    let oab := MeterDetector.onsetAtBeat beats onset hop
    let evalG := fun (st : ℝ × ℕ × ℕ × ℝ) (g : ℕ) =>
      let ac := MeterDetector.beat_autocorrelation oab g
      (List.range g).foldl (fun st2 phi =>
        let acc := MeterDetector.accent_score oab g phi
        let sc := (7 / 10) * acc + (3 / 10) * ac
        if sc > st2.1 then (sc, g, phi, acc) else st2) st
    let st0 := [2, 3, 4].foldl evalG (-(10 : ℝ) ^ 9, 4, 0, 0)
    let best4 := fun (_ : Unit) =>
      (List.range 4).foldl (fun (b : ℝ × ℕ) phi =>
        let acc := MeterDetector.accent_score oab 4 phi
        if acc > b.1 then (acc, phi) else b) (-(10 : ℝ) ^ 9, 0)
    let st1 :=
      if st0.2.1 = 2 then
        let ac4 := MeterDetector.beat_autocorrelation oab 4
        let b4 := best4 ()
        let score4 := (7 / 10) * b4.1 + (3 / 10) * ac4
        if b4.1 > 1 / 10 ∨ score4 > st0.1 * (8 / 10) then (score4, 4, b4.2, b4.1) else st0
      else st0
    let ts0 : TimeSignature :=
      match st1.2.1 with
      | 2 => TimeSignature.TWO_FOUR
      | 3 => TimeSignature.THREE_FOUR
      | 4 => TimeSignature.FOUR_FOUR
      | _ => TimeSignature.FOUR_FOUR
    let confidence := max 0 (min 1 (st1.2.2.2 / 2))
    let fb :=
      if confidence < 15 / 100 ∧ st1.2.1 ≠ 4 then
        let b := (List.range 4).foldl (fun (b : ℝ × ℕ) phi =>
          let acc := MeterDetector.accent_score oab 4 phi
          let ac := MeterDetector.beat_autocorrelation oab 4
          let sc := (7 / 10) * acc + (3 / 10) * ac
          if sc > b.1 then (sc, phi) else b) (-(10 : ℝ) ^ 9, 0)
        if st1.1 < b.1 * (11 / 10) then some b.2 else none
      else none
    let ts1 := match fb with
      | some _ => TimeSignature.FOUR_FOUR
      | none => ts0
    let bpmm1 := match fb with
      | some _ => 4
      | none => st1.2.1
    let phase1 := match fb with
      | some p => p
      | none => st1.2.2.1
    let compound := MeterDetector.check_compound_subdivision beats onset hop
    let ts2 := if ts1 = TimeSignature.TWO_FOUR ∧ compound then TimeSignature.SIX_EIGHT else ts1
    let ts3 := if ts2 = TimeSignature.THREE_FOUR ∧ compound then TimeSignature.SIX_EIGHT else ts2
    let bpmm2 := if ts2 = TimeSignature.THREE_FOUR ∧ compound then 6 else bpmm1
    { time_signature := ts3
      beats_per_measure := bpmm2
      downbeat_phase := phase1
      confidence := confidence
      downbeat_samples := MeterDetector.extract_downbeats beats bpmm2 phase1 }

/-! ### KeyDetector (`src/key_detector.cpp`) -/

/-- `KeyDetector::Result`, reduced to the analysis fields: the loop
variables `best_root` and `best_is_major` (the C++ struct stores the
derived name strings built from `best_root`), the winning correlation and
the confidence (`src/key_detector.cpp` lines 285-292). -/
structure KeyResult where
  root : ℕ
  is_major : Bool
  correlation : ℝ
  confidence : ℝ

/-- Krumhansl-Kessler major profile (`src/key_detector.cpp` lines 20-22). -/
def kMajorProfile : List ℝ :=
  [6.35, 2.23, 3.48, 2.33, 4.38, 4.09, 2.52, 5.19, 2.39, 3.66, 2.29, 2.88]

/-- Krumhansl-Kessler minor profile (`src/key_detector.cpp` lines 24-26). -/
def kMinorProfile : List ℝ :=
  [6.33, 2.68, 3.52, 5.38, 2.60, 3.53, 2.54, 4.75, 3.98, 2.69, 3.34, 3.17]

/-- Reference frequency C0 (`src/key_detector.cpp` line 39). -/
def kC0Hz : ℝ := 163516 / 10000

/-- Hann window sample for the key detector's 4096-point frames
(`src/key_detector.cpp` lines 52-58). -/
def KeyDetector.hannK (i : ℕ) : ℝ :=
  1 / 2 - 1 / 2 * Real.cos (2 * kPiF * (i : ℝ) / 4095)

/-- Power of DFT bin `k` of a real frame `x`.  `pocketfft`'s
`rfft_forward` with factor 1.0 computes exactly this discrete Fourier
transform (in exact arithmetic); `re² + im²` is the power the source forms
from the halfcomplex output (`src/key_detector.cpp` lines 150-152). -/
def dftPower (x : List ℝ) (k : ℕ) : ℝ :=
  let N := x.length
  let re := ((List.range N).map (fun i =>
    x.getD i 0 * Real.cos (2 * Real.pi * (i : ℝ) * (k : ℝ) / (N : ℝ)))).sum
  let im := ((List.range N).map (fun i =>
    x.getD i 0 * Real.sin (2 * Real.pi * (i : ℝ) * (k : ℝ) / (N : ℝ)))).sum
  re ^ 2 + im ^ 2

/-- The interpolated bin-to-chroma mapping of `src/key_detector.cpp` lines
82-103: for an in-band bin, the two pitch classes, the weight of the upper
one, and the clamped octave index. -/
def KeyDetector.binMap (sr : ℤ) (minOctave nOctaves : ℤ) (k : ℕ) :
    Option (ℕ × ℕ × ℝ × ℕ) :=
  let freq : ℝ := (k : ℝ) * (sr : ℝ) / 4096
  if freq < 654 / 10 ∨ freq > 2093 then none
  else
    let pitch : ℝ := 12 * Real.logb 2 (freq / kC0Hz)
    let pf : ℤ := ⌊pitch⌋
    let frac : ℝ := pitch - (pf : ℝ)
    let r := pf % 12
    let pc_lo : ℕ := (if r < 0 then r + 12 else r).toNat
    let pc_hi : ℕ := (pc_lo + 1) % 12
    let oct : ℤ := ⌊pitch / 12⌋ - minOctave
    let octC : ℕ := (max 0 (min oct (nOctaves - 1))).toNat
    some (pc_lo, pc_hi, frac, octC)

/-- Windowed 4096-sample frame `fi` of the key detector
(`src/key_detector.cpp` lines 128-132). -/
def KeyDetector.frameAt (a : AudioBuffer) (fi : ℕ) : List ℝ :=
  (List.range 4096).map (fun i => (a.samples.getD (fi * 4096 + i) 0 : ℝ) * KeyDetector.hannK i)

/-- `KeyDetector::compute_chromagram` from `src/key_detector.cpp` lines
43-192: zero for input shorter than 4096 samples; otherwise per-octave
accumulation of interpolated bin powers over all frames, per-octave L1
normalisation, and averaging over the contributing octaves. -/
def KeyDetector.compute_chromagram (a : AudioBuffer) : List ℝ :=
  if a.samples.length < 4096 then List.replicate 12 0
  else
    let minOctave : ℤ := ⌊(12 * Real.logb 2 ((654 / 10) / kC0Hz)) / 12⌋
    let maxOctave : ℤ := ⌊(12 * Real.logb 2 ((2093 : ℝ) / kC0Hz)) / 12⌋
    let nOctaves : ℤ := maxOctave - minOctave + 1
    let numFrames := 1 + (a.samples.length - 4096) / 4096
    let octaveChroma := fun (o pc : ℕ) =>
      ((List.range numFrames).map (fun fi =>
        let fr := KeyDetector.frameAt a fi
        ((List.range 2047).map (fun k' =>
          let k := k' + 1
          match KeyDetector.binMap a.sample_rate minOctave nOctaves k with
          | none => 0
          | some m =>
            let power := dftPower fr k
            (if m.2.2.2 = o ∧ m.1 = pc then power * (1 - m.2.2.1) else 0) +
            (if m.2.2.2 = o ∧ m.2.1 = pc then power * m.2.2.1 else 0))).sum)).sum
    let totals := fun (o : ℕ) => ((List.range 12).map (octaveChroma o)).sum
    let contributing := (List.range nOctaves.toNat).filter
      (fun o => !decide (totals o < (1 / 1000000000000 : ℝ)))
    let cnt := contributing.length
    (List.range 12).map (fun pc =>
      let base := (contributing.map (fun o => octaveChroma o pc / totals o)).sum
      if cnt = 0 then base else base / (cnt : ℝ))

/-- `KeyDetector::pearson_correlation` from `src/key_detector.cpp` lines
194-219, on 12-bin vectors. -/
def KeyDetector.pearson (x y : List ℝ) : ℝ :=
  let mx := ((List.range 12).map (fun i => x.getD i 0)).sum / 12
  let my := ((List.range 12).map (fun i => y.getD i 0)).sum / 12
  let num := ((List.range 12).map (fun i => (x.getD i 0 - mx) * (y.getD i 0 - my))).sum
  let dx := ((List.range 12).map (fun i => (x.getD i 0 - mx) ^ 2)).sum
  let dy := ((List.range 12).map (fun i => (y.getD i 0 - my) ^ 2)).sum
  let den := Real.sqrt (dx * dy)
  if den < 1 / 1000000000000 then 0 else num / den

/-- The profile rotated so the tonic aligns with pitch class `root`
(`src/key_detector.cpp` lines 248-255). -/
def KeyDetector.rotated (profile : List ℝ) (root : ℕ) : List ℝ :=
  (List.range 12).map (fun i => profile.getD ((((i : ℤ) - (root : ℤ) + 12) % 12).toNat) 0)

/-- One step of the best/second-best tracking of `src/key_detector.cpp`
lines 266-282, for one correlation value `c` of hypothesis
`(r, isMajor)`.  State: `(best, second, root, is_major)`. -/
def KeyDetector.rankStep (st : ℝ × ℝ × ℕ × Bool) (c : ℝ) (r : ℕ) (isMajor : Bool) :
    ℝ × ℝ × ℕ × Bool :=
  if c > st.1 then (c, st.1, r, isMajor)
  else if c > st.2.1 then (st.1, c, st.2.2.1, st.2.2.2)
  else st

/-- `KeyDetector::detect` from `src/key_detector.cpp` lines 221-301:
`none` models the throws on non-mono input or non-positive sample rate. -/
def KeyDetector.detect (a : AudioBuffer) : Option KeyResult :=
  if a.channels ≠ 1 then none
  else if a.sample_rate ≤ 0 then none
  else
    let chroma := KeyDetector.compute_chromagram a
    let final := (List.range 12).foldl (fun st r =>
      let cm := KeyDetector.pearson chroma (KeyDetector.rotated kMajorProfile r)
      let cn := KeyDetector.pearson chroma (KeyDetector.rotated kMinorProfile r)
      KeyDetector.rankStep (KeyDetector.rankStep st cm r true) cn r false)
      ((-2 : ℝ), (-2 : ℝ), 0, true)
    some { root := final.2.2.1
           is_major := final.2.2.2
           correlation := final.1
           confidence := final.1 - final.2.1 }

/-! ### OnsetDetector (`src/onset_detector.cpp`) -/

/-- `OnsetDetector::Result` from `include/bpm/onset_detector.h`. -/
structure OnsetResult where
  onset_strength : List ℝ
  hop_size : ℕ
  fft_size : ℕ

/-- `hz_to_mel` from `src/onset_detector.cpp` lines 15-17. -/
def hz_to_mel (hz : ℝ) : ℝ := 2595 * Real.logb 10 (1 + hz / 700)

/-- `mel_to_hz` from `src/onset_detector.cpp` lines 19-21. -/
def mel_to_hz (mel : ℝ) : ℝ := 700 * ((10 : ℝ) ^ (mel / 2595) - 1)

/-- Hann window sample for the onset detector's 2048-point frames
(`src/onset_detector.cpp` lines 25-33). -/
def OnsetDetector.hannO (i : ℕ) : ℝ :=
  1 / 2 - 1 / 2 * Real.cos (2 * kPiF * (i : ℝ) / 2047)

/-- FFT bin index of mel point `i` (`src/onset_detector.cpp` lines 36-49):
`floor((fft_size + 1) · hz / sample_rate)` clipped to `[0, fft_size/2]`,
where the `mel_bands + 2 = 42` points are equally spaced in mel between
30 Hz and 8 kHz. -/
def OnsetDetector.binPoint (sr : ℤ) (i : ℕ) : ℕ :=
  let lowMel := hz_to_mel 30
  let highMel := hz_to_mel 8000
  let t : ℝ := (i : ℝ) / 41
  let hz := mel_to_hz (lowMel + t * (highMel - lowMel))
  (max 0 (min (⌊2049 * hz / (sr : ℝ)⌋) 1024)).toNat

/-- Triangular mel filter `band` evaluated at `bin`
(`src/onset_detector.cpp` lines 51-77), with the collision adjustments
`center = left + 1` and `right = center + 1`. -/
def OnsetDetector.filterAt (sr : ℤ) (band bin : ℕ) : ℝ :=
  let left := OnsetDetector.binPoint sr band
  let center0 := OnsetDetector.binPoint sr (band + 1)
  let center := if center0 = left then left + 1 else center0
  let right0 := OnsetDetector.binPoint sr (band + 2)
  let right := if right0 = center then center + 1 else right0
  if left ≤ bin ∧ bin < center then ((bin : ℝ) - left) / ((center : ℝ) - left)
  else if center ≤ bin ∧ bin < right then ((right : ℝ) - bin) / ((right : ℝ) - center)
  else 0

/-- Windowed 2048-sample frame `fi` of the onset detector
(`src/onset_detector.cpp` lines 114-119). -/
def OnsetDetector.frameAt (a : AudioBuffer) (fi : ℕ) : List ℝ :=
  (List.range 2048).map (fun i => (a.samples.getD (fi * 512 + i) 0 : ℝ) * OnsetDetector.hannO i)

/-- Log mel energy of `band` in frame `fi` (`src/onset_detector.cpp` lines
134-142): `log10(Σ_bin power(bin) · filter(band, bin) + 1e-10)`.  The
power spectrum entries (DC, interior, Nyquist) all equal the DFT power
`dftPower`. -/
def OnsetDetector.melEnergy (a : AudioBuffer) (fi band : ℕ) : ℝ :=
  Real.logb 10
    ((((List.range 1025).map (fun bin =>
      dftPower (OnsetDetector.frameAt a fi) bin * OnsetDetector.filterAt a.sample_rate band bin)).sum)
      + 1 / 10000000000)

/-- Positive spectral flux of frame `fi` against frame `fi - 1` (zeros for
the first frame), summed over the 40 mel bands (`src/onset_detector.cpp`
lines 144-151). -/
def OnsetDetector.fluxAt (a : AudioBuffer) (fi : ℕ) : ℝ :=
  ((List.range 40).map (fun band =>
    let prev := if fi = 0 then 0 else OnsetDetector.melEnergy a (fi - 1) band
    max 0 (OnsetDetector.melEnergy a fi band - prev))).sum

/-- The z-score normalisation of `src/onset_detector.cpp` lines 155-170:
applied only when the envelope is non-empty and its standard deviation
exceeds `1e-6`. -/
def OnsetDetector.zscore (l : List ℝ) : List ℝ :=
  let n := l.length
  let mean := l.sum / (n : ℝ)
  let sd := Real.sqrt ((l.map (fun v => (v - mean) ^ 2)).sum / (n : ℝ))
  if l = [] then l
  else if sd > 1 / 1000000 then l.map (fun v => (v - mean) / sd) else l

/-- `OnsetDetector::compute` from `src/onset_detector.cpp` lines 80-179:
`none` models the throws (non-mono input, non-positive sample rate, odd
FFT size); empty input returns the default `Result` (zero hop and FFT
size). -/
def OnsetDetector.compute (a : AudioBuffer) : Option OnsetResult :=
  if a.channels ≠ 1 then none
  else if a.sample_rate ≤ 0 then none
  else if a.samples = [] then some { onset_strength := [], hop_size := 0, fft_size := 0 }
  else if (2048 : ℕ) % 2 ≠ 0 then none
  else
    let frames := if 2048 ≤ a.samples.length then 1 + (a.samples.length - 2048) / 512 else 0
    let raw := (List.range frames).map (OnsetDetector.fluxAt a)
    some { onset_strength := OnsetDetector.zscore raw, hop_size := 512, fft_size := 2048 }

/-! ### BeatTracker (`src/beat_tracker.cpp`) -/

/-- `BeatTracker::Result`: the header under `src/` lacks the `score`
member, but `beat_tracker.cpp` (line 65) assigns `result.score` and
`pipeline.cpp` (line 121) reads it, so the result carries both fields. -/
structure BeatResult where
  beat_samples : List ℕ
  score : ℝ

/-- `min_lag` of the DP window (`src/beat_tracker.cpp` line 19):
`max(1, round(period · 0.5f))`.  The float product is exact and
`std::round` (half away from zero) on positive half-integers is
`(period + 1) / 2` in integer division. -/
def BeatTracker.minLagOf (period : ℕ) : ℕ := max 1 ((period + 1) / 2)

/-- `max_lag` of the DP window (`src/beat_tracker.cpp` line 20):
`max(min_lag + 1, round(period · 2.0f))`. -/
def BeatTracker.maxLagOf (period : ℕ) : ℕ := max (BeatTracker.minLagOf period + 1) (2 * period)

/-- The tempo penalty `alpha · ln(lag / period)²` of the DP recurrence
(`src/beat_tracker.cpp` lines 33-34). -/
def BeatTracker.pen (alpha : ℝ) (period lag : ℕ) : ℝ :=
  alpha * Real.log ((lag : ℝ) / (period : ℝ)) ^ 2

/-- Predecessor candidates of frame `t` (`src/beat_tracker.cpp` lines
29-31): `p ∈ [max(0, t - max_lag), max(0, t - min_lag)]`.  The `p < t`
bound is implicit in the source: the only index in that interval not
below `t` is `p = t = 0`, whose score reads the still-uninitialised
`dp[0] = -inf` and therefore never wins. -/
def BeatTracker.cands (minLag maxLag t : ℕ) : List ℕ :=
  (List.range t).filter (fun p => decide (t - maxLag ≤ p ∧ p ≤ t - minLag))

/-- One step of the DP of `src/beat_tracker.cpp` lines 25-44: the best
score for frame `t` and the argmax predecessor (`none` for the C++ `-1`). -/
def BeatTracker.bestStep (onset : List ℝ) (period : ℕ) (alpha : ℝ) (dp : List ℝ) (t : ℕ) :
    ℝ × Option ℕ :=
  (BeatTracker.cands (BeatTracker.minLagOf period) (BeatTracker.maxLagOf period) t).foldl
    (fun b p =>
      let s := dp.getD p 0 + onset.getD t 0 - BeatTracker.pen alpha period (t - p)
      if s > b.1 then (s, some p) else b)
    (onset.getD t 0, none)

/-- The `dp` and `prev` tables after processing frames `0, …, n-1`
(`src/beat_tracker.cpp` lines 22-44). -/
def BeatTracker.tables (onset : List ℝ) (period : ℕ) (alpha : ℝ) :
    ℕ → List ℝ × List (Option ℕ)
  | 0 => ([], [])
  | n + 1 =>
    let tb := BeatTracker.tables onset period alpha n
    let r := BeatTracker.bestStep onset period alpha tb.1 n
    (tb.1 ++ [r.1], tb.2 ++ [r.2])

/-- `static_cast<int>(total_frames * 0.9f)` clamped to `[0, n-1]`
(`src/beat_tracker.cpp` lines 46-47), with `0.9f = 15099494 / 2^24`.  The
float product rounds to nearest, so for a few lengths (e.g. multiples of
10) the source yields one more than this exact floor; no theorem below
evaluates at such a length, and the universally quantified theorems hold
for every start of the tail search. -/
def BeatTracker.searchStart (n : ℕ) : ℕ :=
  min (⌊(n : ℚ) * (15099494 / 16777216 : ℚ)⌋.toNat) (n - 1)

/-- Argmax of `dp` over the tail `[ss, n)` (`src/beat_tracker.cpp` lines
48-55), together with its score. -/
def BeatTracker.bestEnd (dp : List ℝ) (ss : ℕ) : ℕ × ℝ :=
  ((List.range dp.length).drop ss).foldl
    (fun b t => if dp.getD t 0 > b.2 then (t, dp.getD t 0) else b) (ss, dp.getD ss 0)

/-- Backtracking through `prev` (`src/beat_tracker.cpp` lines 57-62),
fuelled: the chain strictly decreases, so any fuel above the start index
yields the full chain (newest first). -/
def BeatTracker.backtrack (prev : List (Option ℕ)) : ℕ → ℕ → List ℕ
  | 0, idx => [idx]
  | fuel + 1, idx =>
    match prev.getD idx none with
    | none => [idx]
    | some p => idx :: BeatTracker.backtrack prev fuel p

/-- `BeatTracker::track` from `src/beat_tracker.cpp` lines 9-72. -/
def BeatTracker.track (onset : List ℝ) (period hop : ℕ) (alpha : ℝ) : BeatResult :=
  if period = 0 ∨ hop = 0 ∨ onset = [] then { beat_samples := [], score := 0 }
  else
    let n := onset.length
    let tb := BeatTracker.tables onset period alpha n
    let ss := BeatTracker.searchStart n
    let be := (BeatTracker.bestEnd tb.1 ss).1
    let frames := (BeatTracker.backtrack tb.2 n be).reverse
    { beat_samples := frames.map (· * hop), score := (BeatTracker.bestEnd tb.1 ss).2 }

/-! ### TempoEstimator (`src/tempo_estimator.cpp`) -/

/-- `TempoEstimator::Result`.  The header under `src/` declares only `bpm`
and `period_frames`; the `candidate_periods` member is read by
`pipeline.cpp` (line 97) and belongs to the later variant missing from
`src/`, so it is carried here and filled by the spec-modelled
`TempoEstimator.candidatePeriods`. -/
structure TempoResult where
  bpm : ℝ
  period_frames : ℕ
  candidate_periods : List ℕ

/-- The zero-initialised `Result{}` returned on degenerate inputs. -/
def TempoEstimator.emptyResult : TempoResult :=
  { bpm := 0, period_frames := 0, candidate_periods := [] }

/-- `bpm_from_lag` from `src/tempo_estimator.cpp` lines 12-17. -/
def bpm_from_lag (lag : ℕ) (fr : ℝ) : ℝ :=
  if lag = 0 ∨ fr ≤ 0 then 0 else 60 * fr / (lag : ℝ)

/-- `bpm_from_lag_f` from `src/tempo_estimator.cpp` lines 19-24. -/
def bpm_from_lag_f (lag fr : ℝ) : ℝ :=
  if lag ≤ 0 ∨ fr ≤ 0 then 0 else 60 * fr / lag

/-- Unbiased autocorrelation at `lag` (`src/tempo_estimator.cpp` lines
73-80): `(Σ_{i ≥ lag} x[i]·x[i-lag]) / (len − lag)`. -/
def TempoEstimator.autocorrAt (onset : List ℝ) (lag : ℕ) : ℝ :=
  let cnt := onset.length - lag
  let s := ((List.range cnt).map (fun i => onset.getD (i + lag) 0 * onset.getD i 0)).sum
  if cnt = 0 then 0 else s / (cnt : ℝ)

/-- The log-Gaussian-priored score `weighted[lag]` (`src/tempo_estimator.cpp`
lines 85-96); zero outside `[minLag, maxLag]` and for non-positive BPM, as
in the zero-initialised array. -/
def TempoEstimator.weightedAt (onset : List ℝ) (fr : ℝ) (minLag maxLag lag : ℕ) : ℝ :=
  if lag < minLag ∨ maxLag < lag then 0
  else
    let bpm := bpm_from_lag lag fr
    if bpm ≤ 0 then 0
    else
      let sigma : ℝ := 1
      TempoEstimator.autocorrAt onset lag *
        Real.exp (-(1 / 2) * Real.logb 2 (bpm / 120) ^ 2 / (sigma * sigma))

/-- The inclusive lag range `[lo, hi]` as a list. -/
def lagList (lo hi : ℕ) : List ℕ := List.range' lo (hi + 1 - lo)

/-- One iteration of the prior-weighted argmax loop
(`src/tempo_estimator.cpp` lines 89-101): skip non-positive BPM, update on
a strictly better weighted score.  The running best starts at `-inf`,
modelled by `Option`: the first non-skipped lag always takes the lead. -/
def TempoEstimator.argmaxStep (onset : List ℝ) (fr : ℝ) (minLag maxLag : ℕ)
    (b : ℕ × Option ℝ) (lag : ℕ) : ℕ × Option ℝ :=
  if bpm_from_lag lag fr ≤ 0 then b
  else
    let w := TempoEstimator.weightedAt onset fr minLag maxLag lag
    match b.2 with
    | none => (lag, some w)
    | some bs => if w > bs then (lag, some w) else b

/-- The argmax of `weighted` over `[minLag, maxLag]`
(`src/tempo_estimator.cpp` lines 82-101). -/
def TempoEstimator.bestLagInit (onset : List ℝ) (fr : ℝ) (minLag maxLag : ℕ) : ℕ :=
  ((lagList minLag maxLag).foldl (TempoEstimator.argmaxStep onset fr minLag maxLag)
    (minLag, none)).1

/-- The noise-floor estimate (`src/tempo_estimator.cpp` lines 121-133):
the element at index `size / 2` of the ascending sort of
`weighted[minLag..maxLag]`. -/
def TempoEstimator.medianWeighted (onset : List ℝ) (fr : ℝ) (minLag maxLag : ℕ) : ℝ :=
  let sorted := List.insertionSort (· ≤ ·)
    ((lagList minLag maxLag).map (TempoEstimator.weightedAt onset fr minLag maxLag))
  sorted.getD (sorted.length / 2) 0

/-- One iteration of the octave-correction loop (`src/tempo_estimator.cpp`
lines 139-175).  `Sum.inl next` continues with `best_lag = next`;
`Sum.inr final` is the `break` with the final lag.  `best_half` starts at
`-1` with score `-inf` (the `Option`); a window maximum below `min_lag`
cannot arise from a non-empty window since `search_lo ≥ min_lag`, but the
source's check is kept.  `windowStep` is one iteration of its window
argmax (`src/tempo_estimator.cpp` lines 144-151). -/
def TempoEstimator.windowStep (w : ℕ → ℝ) (b : Option (ℕ × ℝ)) (lag : ℕ) :
    Option (ℕ × ℝ) :=
  match b with
  | none => some (lag, w lag)
  | some pr => if w lag > pr.2 then some (lag, w lag) else b

def TempoEstimator.octaveStep (w : ℕ → ℝ) (median : ℝ) (minLag maxLag bestLag : ℕ) :
    ℕ ⊕ ℕ :=
  let hc := bestLag / 2
  let lo := max minLag (hc - 2)
  let hi := min maxLag (hc + 2)
  let bh := (lagList lo hi).foldl (TempoEstimator.windowStep w) none
  match bh with
  | none => Sum.inr bestLag
  | some pr =>
    if pr.1 < minLag then Sum.inr bestLag
    else if pr.2 > median ∧ pr.2 > (1 / 2) * w bestLag then Sum.inl pr.1
    else Sum.inr bestLag

/-- The octave-correction `for (;;)` loop, fuelled: `none` means the loop
has not reached its `break` within `fuel` iterations. -/
def TempoEstimator.octaveLoop (w : ℕ → ℝ) (median : ℝ) (minLag maxLag : ℕ) :
    ℕ → ℕ → Option ℕ
  | 0, _ => none
  | fuel + 1, bestLag =>
    match TempoEstimator.octaveStep w median minLag maxLag bestLag with
    | Sum.inr final => some final
    | Sum.inl next => TempoEstimator.octaveLoop w median minLag maxLag fuel next

/-- `parabolic_interpolate` from `src/tempo_estimator.cpp` lines 28-41. -/
def TempoEstimator.parabolic (d : ℕ → ℝ) (peak lo hi : ℕ) : ℝ :=
  if peak ≤ lo ∨ hi ≤ peak then (peak : ℝ)
  else
    let a := d (peak - 1)
    let b := d peak
    let c := d (peak + 1)
    let denom := a - 2 * b + c
    if |denom| < 1 / 1000000000000 then (peak : ℝ)
    else (peak : ℝ) + (1 / 2) * (a - c) / denom

/-- The lower lag bound of the tempo search (`src/tempo_estimator.cpp`
lines 63-64): `max(ceil(60 · fr / max_bpm), 1)`. -/
def TempoEstimator.searchMinLag (fr maxB : ℝ) : ℕ :=
  (max (⌈60 * fr / maxB⌉) 1).toNat

/-- The upper lag bound of the tempo search (`src/tempo_estimator.cpp`
lines 62 and 65): `min(floor(60 · fr / min_bpm), len - 1)`. -/
def TempoEstimator.searchMaxLag (len : ℕ) (fr minB : ℝ) : ℕ :=
  (min (⌊60 * fr / minB⌋) ((len : ℤ) - 1)).toNat

/-- `TempoEstimator::estimate` from `src/tempo_estimator.cpp` lines
45-205, fuelled because the octave-correction loop need not terminate
(see the C4 theorems).  `none` models both the throw on non-positive
sample rate or hop size and a loop that has not stopped within `fuel`
iterations.  The `candidate_periods` field of the result is the
spec-modelled list (see `TempoEstimator.candidatePeriods`). -/
def TempoEstimator.estimateFuel (fuel : ℕ) (onset : List ℝ) (sample_rate hop_size : ℤ)
    (min_bpm max_bpm : ℝ) : Option TempoResult :=
  if sample_rate ≤ 0 ∨ hop_size ≤ 0 then none
  else if onset.length < 2 then some TempoEstimator.emptyResult
  else
    let fr : ℝ := (sample_rate : ℝ) / (hop_size : ℝ)
    let minB := max min_bpm 1
    let maxB := max max_bpm (minB + 1)
    let minLag : ℕ := TempoEstimator.searchMinLag fr maxB
    let maxLag : ℕ := TempoEstimator.searchMaxLag onset.length fr minB
    if maxLag ≤ minLag then some TempoEstimator.emptyResult
    else
      let w := TempoEstimator.weightedAt onset fr minLag maxLag
      let b0 := TempoEstimator.bestLagInit onset fr minLag maxLag
      let med := TempoEstimator.medianWeighted onset fr minLag maxLag
      match TempoEstimator.octaveLoop w med minLag maxLag fuel b0 with
      | none => none
      | some bl =>
        let bl2 := if bpm_from_lag bl fr > 200 ∧ 2 * bl ≤ maxLag then 2 * bl else bl
        let refined := TempoEstimator.parabolic (TempoEstimator.autocorrAt onset) bl2 minLag maxLag
        some { bpm := bpm_from_lag_f refined fr
               period_frames := bl2
               candidate_periods := TempoEstimator.candidatePeriods bl2 minLag maxLag }

/-! ### Pipeline controller (`src/pipeline.cpp`) -/

/-- State of the candidate-evaluation loop of `src/pipeline.cpp` lines
89-145: best period, its beats, the best per-beat score (`none` = `-inf`)
and the primary candidate's per-beat score (`none` = `-inf`, i.e. not yet
seen). -/
structure CandState where
  best_period : ℕ
  beats : BeatResult
  best_score : Option ℝ
  primary_norm : Option ℝ

/-- The per-beat normalised score of a beat-tracker result
(`src/pipeline.cpp` lines 119-121): `score / count`, 0 for an empty beat
list. -/
def Pipeline.normScore (r : BeatResult) : ℝ :=
  if r.beat_samples = [] then 0 else r.score / (r.beat_samples.length : ℝ)

/-- `candidate_bpm` of `src/pipeline.cpp` lines 98-101. -/
def Pipeline.candBpm (sample_rate hop_size : ℤ) (c : ℕ) : ℝ :=
  if 0 < c then 60 * (sample_rate : ℝ) / (hop_size : ℝ) / (c : ℝ) else 0

/-- The selection threshold of `src/pipeline.cpp` lines 135-139: the
running best score, raised to `primary_norm · 1.05` for non-primary
candidates once the primary's norm is known (`none` is `-inf`). -/
def Pipeline.candThreshold (primary c : ℕ) (prim bs : Option ℝ) : Option ℝ :=
  if c ≠ primary then
    match prim with
    | some pn =>
      match bs with
      | some b => some (max b (pn * (105 / 100)))
      | none => some (pn * (105 / 100))
    | none => bs
  else bs

/-- `norm_score > threshold` with `-inf` as `none`
(`src/pipeline.cpp` line 140). -/
def Pipeline.winsB (norm : ℝ) : Option ℝ → Bool
  | none => true
  | some th => decide (norm > th)

/-- One iteration of the candidate loop of `src/pipeline.cpp` lines
97-145 for candidate `c`.  `primary` is `tempo.period_frames`,
`primary_bpm` is `tempo.bpm`. -/
def Pipeline.candStep (onset : List ℝ) (sample_rate hop_size : ℤ) (primary : ℕ)
    (primary_bpm : ℝ) (st : CandState) (c : ℕ) : CandState :=
  let rr := Pipeline.candBpm sample_rate hop_size c / primary_bpm
  if rr < 7 / 10 ∨ rr > 13 / 10 then st
  else
    let cb := BeatTracker.track onset c hop_size.toNat 680
    let norm := Pipeline.normScore cb
    let prim := if c = primary then some norm else st.primary_norm
    if Pipeline.winsB norm (Pipeline.candThreshold primary c prim st.best_score) then
      { best_period := c, beats := cb, best_score := some norm, primary_norm := prim }
    else { st with primary_norm := prim }

/-- The candidate-evaluation block of `src/pipeline.cpp` lines 89-154:
fold the loop over `tempo.candidate_periods`, then recompute the final
BPM from the winning period (lines 147-150). -/
def Pipeline.evalCandidates (onset : List ℝ) (sample_rate hop_size : ℤ)
    (tempo : TempoResult) : CandState × ℝ :=
  let final := tempo.candidate_periods.foldl
    (Pipeline.candStep onset sample_rate hop_size tempo.period_frames tempo.bpm)
    { best_period := tempo.period_frames
      beats := { beat_samples := [], score := 0 }
      best_score := none
      primary_norm := none }
  let fr : ℝ := (sample_rate : ℝ) / (hop_size : ℝ)
  let final_bpm := if 0 < final.best_period then 60 * fr / (final.best_period : ℝ) else tempo.bpm
  (final, final_bpm)

/-- The aggregate analysis result of the controller (spec §4.6: the
controller returns `(bpm, beat_samples, MeterResult, KeyResult)`). -/
structure PipelineResult where
  bpm : ℝ
  beat_samples : List ℕ
  meter : MeterResult
  key : KeyResult

/-- Modelled from the spec: the analysis part of `Pipeline::run`.  The
`pipeline.cpp` under `src/` is an earlier variant without key detection,
while `main.cpp` sets the `detect_key` and `accent_downbeats` options of
the later variant that is missing from `src/`; spec §4.6 steps 1-7
describe that variant (downmix; onset extraction; tempo estimation;
candidate evaluation through the beat tracker; meter detection on the
winning beats; key detection on the mono buffer; aggregate result).  The
stages themselves are the source-embedded functions above; decoding and
WAV/click output are outside the analysis core.  `none` models a stage
throw; the tempo stage is fuelled (see C4). -/
def Pipeline.runAnalysis (fuel : ℕ) (input : AudioBuffer) (min_bpm max_bpm : ℝ) :
    Option PipelineResult :=
  let mono := input.to_mono
  match OnsetDetector.compute mono with
  | none => none
  | some onset =>
    match TempoEstimator.estimateFuel fuel onset.onset_strength mono.sample_rate
      onset.hop_size min_bpm max_bpm with
    | none => none
    | some tempo =>
      let ev := Pipeline.evalCandidates onset.onset_strength mono.sample_rate
        onset.hop_size tempo
      let meter := MeterDetector.detect ev.1.beats.beat_samples onset.onset_strength
        onset.hop_size mono.sample_rate ev.2
      match KeyDetector.detect mono with
      | none => none
      | some key =>
        some { bpm := ev.2
               beat_samples := ev.1.beats.beat_samples
               meter := meter
               key := key }

/-! ## Theorems -/

theorem dedupFirst_sublist :
    ∀ (n : ℕ) (l : List ℕ), l.length ≤ n → List.Sublist (dedupFirst l) l := by
  intro n
  induction n with
  | zero =>
    intro l hl
    rw [Nat.le_zero, List.length_eq_zero] at hl
    subst hl
    simp [dedupFirst]
  | succ n ih =>
    intro l hl
    match l with
    | [] => simp [dedupFirst]
    | a :: t =>
      rw [dedupFirst]
      refine List.Sublist.cons₂ a ?_
      have h1 : (t.filter (fun b => b != a)).length ≤ n := by
        have := List.length_filter_le (fun b => b != a) t
        simp only [List.length_cons, Nat.succ_le_succ_iff] at hl
        omega
      exact (ih _ h1).trans (List.filter_sublist t)

theorem dedupFirst_nodup : ∀ (n : ℕ) (l : List ℕ), l.length ≤ n → (dedupFirst l).Nodup := by
  intro n
  induction n with
  | zero =>
    intro l hl
    rw [Nat.le_zero, List.length_eq_zero] at hl
    subst hl
    simp [dedupFirst]
  | succ n ih =>
    intro l hl
    match l with
    | [] => simp [dedupFirst]
    | a :: t =>
      rw [dedupFirst]
      have h1 : (t.filter (fun b => b != a)).length ≤ n := by
        have := List.length_filter_le (fun b => b != a) t
        simp only [List.length_cons, Nat.succ_le_succ_iff] at hl
        omega
      refine List.nodup_cons.mpr ⟨?_, ih _ h1⟩
      intro hmem
      have hmm := (dedupFirst_sublist n _ h1).mem hmem
      simp [List.mem_filter] at hmm

theorem mem_dedupFirst :
    ∀ (n : ℕ) (l : List ℕ), l.length ≤ n → ∀ c, c ∈ dedupFirst l ↔ c ∈ l := by
  intro n
  induction n with
  | zero =>
    intro l hl c
    rw [Nat.le_zero, List.length_eq_zero] at hl
    subst hl
    simp [dedupFirst]
  | succ n ih =>
    intro l hl c
    match l with
    | [] => simp [dedupFirst]
    | a :: t =>
      rw [dedupFirst]
      have h1 : (t.filter (fun b => b != a)).length ≤ n := by
        have := List.length_filter_le (fun b => b != a) t
        simp only [List.length_cons, Nat.succ_le_succ_iff] at hl
        omega
      by_cases hca : c = a
      · subst hca
        simp
      · simp only [List.mem_cons, hca, false_or]
        rw [ih _ h1 c]
        simp [List.mem_filter, hca]

/-- Bounds of the WAV writer's sample clamp. -/
theorem clipSample_bounds (x : ℚ) : -1 ≤ clipSample x ∧ clipSample x ≤ 1 := by
  unfold clipSample
  constructor
  · exact le_max_left _ _
  · exact max_le (by norm_num) (min_le_left _ _)

/-- C6 (corrected), counterexample: at the sample `x = 1/4` the source
emits `⌊8191.75⌋ = 8191`, not the nearest integer `8192` the claim
specifies. -/
theorem wav_quantize_cex :
    WavWriter.quantize (1 / 4) = 8191 ∧ WavWriter.quantizeSpec (1 / 4) = 8192 ∧
      WavWriter.quantize (1 / 4) ≠ WavWriter.quantizeSpec (1 / 4) := by
  have hc : clipSample (1 / 4 : ℚ) = 1 / 4 := by
    unfold clipSample
    rw [min_eq_right (by norm_num), max_eq_right (by norm_num)]
  have h1 : WavWriter.quantize (1 / 4) = 8191 := by
    unfold WavWriter.quantize
    rw [hc, if_pos (by norm_num)]
    norm_num
  have h2 : WavWriter.quantizeSpec (1 / 4) = 8192 := by
    unfold WavWriter.quantizeSpec
    rw [hc, round_eq]
    norm_num
  exact ⟨h1, h2, by rw [h1, h2]; decide⟩

/-- C6 (amended): `WavWriter::write` encodes each sample `x` as the 16-bit
integer obtained by truncating `clip(x, -1, 1) · 32767` toward zero: the
encoded integer differs from `clip(x) · 32767` by less than 1, lies in
`[-32767, 32767]`, and agrees with it exactly whenever it is an integer. -/
theorem wav_quantize_truncation (x : ℚ) :
    |(WavWriter.quantize x : ℚ) - clipSample x * 32767| < 1 ∧
    -32767 ≤ WavWriter.quantize x ∧ WavWriter.quantize x ≤ 32767 ∧
    ∀ n : ℤ, clipSample x * 32767 = (n : ℚ) → WavWriter.quantize x = n := by
  have hb := clipSample_bounds x
  have hy1 : clipSample x * 32767 ≤ 32767 := by nlinarith [hb.2]
  have hy2 : -32767 ≤ clipSample x * 32767 := by nlinarith [hb.1]
  unfold WavWriter.quantize
  set y := clipSample x * 32767 with hy
  by_cases h0 : 0 ≤ y
  · rw [if_pos h0]
    refine ⟨?_, ?_, ?_, ?_⟩
    · rw [abs_lt]
      constructor
      · have := Int.lt_floor_add_one y
        linarith
      · have := Int.floor_le y
        linarith
    · have : (0 : ℤ) ≤ ⌊y⌋ := Int.floor_nonneg.mpr h0
      omega
    · have : ⌊y⌋ ≤ ⌊(32767 : ℚ)⌋ := Int.floor_le_floor hy1
      simpa using this
    · intro n hn
      rw [hn]
      exact Int.floor_intCast n
  · rw [if_neg h0]
    refine ⟨?_, ?_, ?_, ?_⟩
    · rw [abs_lt]
      constructor
      · have := Int.le_ceil y
        linarith
      · have := Int.ceil_lt_add_one y
        linarith
    · have : ⌈(-32767 : ℚ)⌉ ≤ ⌈y⌉ := Int.ceil_le_ceil hy2
      simpa using this
    · have : ⌈y⌉ ≤ (0 : ℤ) := Int.ceil_le.mpr (by push_cast; linarith [not_le.mp h0])
      omega
    · intro n hn
      rw [hn]
      exact Int.ceil_intCast n

/-- C6 witness: the amended theorem applied at `x = 1`, where the scaled
clipped sample is exactly the integer 32767. -/
theorem wav_quantize_truncation_witness : WavWriter.quantize 1 = 32767 :=
  (wav_quantize_truncation 1).2.2.2 32767 (by norm_num [clipSample])

/-- C9 (confirmed): fewer than 8 beats make `MeterDetector::detect`
return the sentinel 4/4 result with phase 0 and confidence 0 (and the
downbeats extracted with grouping 4 from phase 0), without error. -/
theorem meter_detector_short_input (beats : List ℕ) (onset : List ℝ) (hop : ℕ)
    (sr : ℤ) (bpm : ℝ) (h : beats.length < 8) :
    MeterDetector.detect beats onset hop sr bpm =
      { time_signature := TimeSignature.FOUR_FOUR
        beats_per_measure := 4
        downbeat_phase := 0
        confidence := 0
        downbeat_samples := MeterDetector.extract_downbeats beats 4 0 } := by
  unfold MeterDetector.detect
  rw [if_pos h]

/-- C9 witness: the sentinel on the empty beat list. -/
theorem meter_detector_short_input_witness :
    MeterDetector.detect [] [] 512 44100 120 =
      { time_signature := TimeSignature.FOUR_FOUR
        beats_per_measure := 4
        downbeat_phase := 0
        confidence := 0
        downbeat_samples := [] } := by
  have h := meter_detector_short_input [] [] 512 44100 120 (by decide)
  rw [h]
  norm_num [MeterDetector.extract_downbeats]

theorem synth_click_ne_nil (sr : ℤ) (h : 0 < sr) (vol freq : ℝ) :
    Metronome.synth_click sr vol freq kClickDurationF 200 ≠ [] := by
  unfold Metronome.synth_click
  rw [if_neg]
  · intro hnil
    have hlen := congrArg List.length hnil
    rw [List.length_map, List.length_range] at hlen
    simp only [List.length_nil] at hlen
    omega
  · push_neg
    constructor
    · omega
    · unfold kClickDurationF
      norm_num

/-- C10 (confirmed): for a buffer with positive sample rate, positive
channel count and non-empty samples, a non-empty beat list makes
`Metronome::overlay` end with the whole-buffer clamp, so every resulting
sample lies in `[-1, 1]`; with an empty beat list the buffer is returned
unchanged (no clamp). -/
theorem metronome_overlay_clamp (audio : AudioBuffer) (beats : List ℕ) (vol freq : ℝ)
    (h1 : 0 < audio.sample_rate) (h2 : 0 < audio.channels) (h3 : audio.samples ≠ []) :
    (beats ≠ [] → ∀ s ∈ Metronome.overlay audio beats vol freq, -1 ≤ s ∧ s ≤ 1) ∧
    (beats = [] →
      Metronome.overlay audio beats vol freq = audio.samples.map (fun q => (q : ℝ))) := by
  have hguard : ¬ (audio.sample_rate ≤ 0 ∨ audio.channels ≤ 0 ∨ audio.samples = []) := by
    push_neg
    exact ⟨by omega, by omega, h3⟩
  constructor
  · intro h4 s hs
    unfold Metronome.overlay at hs
    rw [if_neg hguard, if_neg h4,
      if_neg (synth_click_ne_nil audio.sample_rate h1 vol freq)] at hs
    simp only [List.mem_map] at hs
    obtain ⟨x, -, rfl⟩ := hs
    exact ⟨le_max_left _ _, max_le (by norm_num) (min_le_left _ _)⟩
  · intro h4
    unfold Metronome.overlay
    rw [if_neg hguard, if_pos h4]

/-- C10 witness: a stereo-out-of-range buffer with one beat is fully
clamped; with no beats it is untouched. -/
theorem metronome_overlay_clamp_witness :
    (0 : ℤ) < 1 ∧ ([(2 : ℚ), -3] ≠ []) ∧
      (∀ s ∈ Metronome.overlay ⟨[2, -3], 1, 1⟩ [0] 0 0, -1 ≤ s ∧ s ≤ 1) := by
  refine ⟨by decide, by decide, ?_⟩
  exact (metronome_overlay_clamp ⟨[2, -3], 1, 1⟩ [0] 0 0 (by decide) (by decide)
    (by decide)).1 (by decide)

theorem zscore_length (l : List ℝ) : (OnsetDetector.zscore l).length = l.length := by
  simp only [OnsetDetector.zscore]
  split
  · rfl
  · split
    · simp
    · rfl

/-- C7 (confirmed): for mono input with positive sample rate,
`OnsetDetector::compute` succeeds and the envelope length is
`1 + (num_samples - fft_size) / hop_size` when `num_samples ≥ 2048`, else
0 (both degenerate paths — empty input and input shorter than one frame —
give 0). -/
theorem onset_envelope_length (a : AudioBuffer) (h1 : a.channels = 1)
    (h2 : 0 < a.sample_rate) :
    (OnsetDetector.compute a).map (fun r => r.onset_strength.length) =
      some (if 2048 ≤ a.samples.length then 1 + (a.samples.length - 2048) / 512 else 0) := by
  unfold OnsetDetector.compute
  rw [if_neg (by rw [h1]; decide), if_neg (by omega)]
  by_cases h3 : a.samples = []
  · rw [if_pos h3]
    simp [h3]
  · rw [if_neg h3, if_neg (by norm_num)]
    simp [zscore_length]

/-- C7 witness: a one-sample mono buffer yields an empty envelope. -/
theorem onset_envelope_length_witness :
    (OnsetDetector.compute ⟨[0], 1, 1⟩).map (fun r => r.onset_strength.length) = some 0 := by
  have h := onset_envelope_length ⟨[0], 1, 1⟩ rfl (by decide)
  simpa using h

theorem replicate_zero_getD : ∀ (n i : ℕ), (List.replicate n (0 : ℝ)).getD i 0 = 0 := by
  intro n
  induction n with
  | zero => intro i; simp
  | succ n ih =>
    intro i
    cases i with
    | zero => simp [List.replicate_succ]
    | succ j => simp [List.replicate_succ, ih j]

/-- The Pearson correlation of the all-zero chroma with anything is 0:
the denominator `sqrt(0 · dy)` trips the `1e-12` guard. -/
theorem pearson_zero_left (y : List ℝ) : KeyDetector.pearson (List.replicate 12 0) y = 0 := by
  unfold KeyDetector.pearson
  simp only [replicate_zero_getD]
  norm_num

theorem rank_fold_fixed (l : List ℕ) :
    l.foldl (fun st r => KeyDetector.rankStep (KeyDetector.rankStep st 0 r true) 0 r false)
      ((0 : ℝ), (0 : ℝ), 0, true) = ((0 : ℝ), (0 : ℝ), 0, true) := by
  induction l with
  | nil => rfl
  | cons a t ih =>
    rw [List.foldl_cons]
    have hstep : KeyDetector.rankStep (KeyDetector.rankStep ((0 : ℝ), (0 : ℝ), 0, true) 0 a true)
        0 a false = ((0 : ℝ), (0 : ℝ), 0, true) := by
      unfold KeyDetector.rankStep
      norm_num
    rw [hstep, ih]

/-- C8 (confirmed): a mono buffer with positive sample rate and fewer than
4096 samples yields the all-zero chromagram, and `KeyDetector::detect`
returns root 0 (C), major mode, correlation 0 and confidence 0. -/
theorem key_detector_short_input (a : AudioBuffer) (h1 : a.channels = 1)
    (h2 : 0 < a.sample_rate) (h3 : a.samples.length < 4096) :
    KeyDetector.compute_chromagram a = List.replicate 12 0 ∧
      KeyDetector.detect a =
        some { root := 0, is_major := true, correlation := 0, confidence := 0 } := by
  have hchroma : KeyDetector.compute_chromagram a = List.replicate 12 0 := by
    unfold KeyDetector.compute_chromagram
    rw [if_pos h3]
  refine ⟨hchroma, ?_⟩
  unfold KeyDetector.detect
  rw [if_neg (by rw [h1]; decide), if_neg (by omega)]
  rw [hchroma]
  simp only [pearson_zero_left]
  rw [show List.range 12 = 0 :: [1, 2, 3, 4, 5, 6, 7, 8, 9, 10, 11] from by decide]
  rw [List.foldl_cons]
  have hfirst : KeyDetector.rankStep (KeyDetector.rankStep ((-2 : ℝ), (-2 : ℝ), 0, true) 0 0 true)
      0 0 false = ((0 : ℝ), (0 : ℝ), 0, true) := by
    unfold KeyDetector.rankStep
    norm_num
  rw [hfirst, rank_fold_fixed]
  norm_num

/-- C8 witness: the empty mono buffer. -/
theorem key_detector_short_input_witness :
    KeyDetector.detect ⟨[], 44100, 1⟩ =
      some { root := 0, is_major := true, correlation := 0, confidence := 0 } :=
  (key_detector_short_input ⟨[], 44100, 1⟩ rfl (by decide) (by decide)).2

/-- C1 (confirmed, spec-modelled): whenever the (fuelled, spec-completed)
tempo estimator succeeds with a non-degenerate result, its
`candidate_periods` is exactly the sequence
`{best_lag, 2·best_lag, 3·best_lag, best_lag/2, best_lag/3}` filtered to
`[min_lag, max_lag]` and de-duplicated while preserving that order:
it has no duplicates, is an order-preserving subsequence of the filtered
sequence, and contains precisely the filtered sequence's members. -/
theorem tempo_candidate_periods_ok (fuel : ℕ) (onset : List ℝ) (sr hop : ℤ)
    (minBpm maxBpm : ℝ) (r : TempoResult)
    (h : TempoEstimator.estimateFuel fuel onset sr hop minBpm maxBpm = some r)
    (hnz : 0 < r.period_frames) :
    r.candidate_periods.Nodup ∧
    List.Sublist r.candidate_periods
      ([r.period_frames, 2 * r.period_frames, 3 * r.period_frames,
        r.period_frames / 2, r.period_frames / 3].filter
        (fun c => decide (TempoEstimator.searchMinLag ((sr : ℝ) / (hop : ℝ))
            (max maxBpm (max minBpm 1 + 1)) ≤ c ∧
          c ≤ TempoEstimator.searchMaxLag onset.length ((sr : ℝ) / (hop : ℝ))
            (max minBpm 1)))) ∧
    ∀ c, c ∈ r.candidate_periods ↔
      c ∈ [r.period_frames, 2 * r.period_frames, 3 * r.period_frames,
        r.period_frames / 2, r.period_frames / 3].filter
        (fun c => decide (TempoEstimator.searchMinLag ((sr : ℝ) / (hop : ℝ))
            (max maxBpm (max minBpm 1 + 1)) ≤ c ∧
          c ≤ TempoEstimator.searchMaxLag onset.length ((sr : ℝ) / (hop : ℝ))
            (max minBpm 1))) := by
  simp only [TempoEstimator.estimateFuel] at h
  by_cases hc1 : sr ≤ 0 ∨ hop ≤ 0
  · rw [if_pos hc1] at h
    cases h
  rw [if_neg hc1] at h
  by_cases hc2 : onset.length < 2
  · rw [if_pos hc2] at h
    injection h with h'
    rw [← h'] at hnz
    simp [TempoEstimator.emptyResult] at hnz
  rw [if_neg hc2] at h
  by_cases hc3 : TempoEstimator.searchMaxLag onset.length ((sr : ℝ) / (hop : ℝ))
      (max minBpm 1) ≤ TempoEstimator.searchMinLag ((sr : ℝ) / (hop : ℝ))
      (max maxBpm (max minBpm 1 + 1))
  · rw [if_pos hc3] at h
    injection h with h'
    rw [← h'] at hnz
    simp [TempoEstimator.emptyResult] at hnz
  rw [if_neg hc3] at h
  cases hloop : TempoEstimator.octaveLoop
      (TempoEstimator.weightedAt onset ((sr : ℝ) / (hop : ℝ))
        (TempoEstimator.searchMinLag ((sr : ℝ) / (hop : ℝ)) (max maxBpm (max minBpm 1 + 1)))
        (TempoEstimator.searchMaxLag onset.length ((sr : ℝ) / (hop : ℝ)) (max minBpm 1)))
      (TempoEstimator.medianWeighted onset ((sr : ℝ) / (hop : ℝ))
        (TempoEstimator.searchMinLag ((sr : ℝ) / (hop : ℝ)) (max maxBpm (max minBpm 1 + 1)))
        (TempoEstimator.searchMaxLag onset.length ((sr : ℝ) / (hop : ℝ)) (max minBpm 1)))
      (TempoEstimator.searchMinLag ((sr : ℝ) / (hop : ℝ)) (max maxBpm (max minBpm 1 + 1)))
      (TempoEstimator.searchMaxLag onset.length ((sr : ℝ) / (hop : ℝ)) (max minBpm 1))
      fuel
      (TempoEstimator.bestLagInit onset ((sr : ℝ) / (hop : ℝ))
        (TempoEstimator.searchMinLag ((sr : ℝ) / (hop : ℝ)) (max maxBpm (max minBpm 1 + 1)))
        (TempoEstimator.searchMaxLag onset.length ((sr : ℝ) / (hop : ℝ)) (max minBpm 1))) with
  | none =>
    rw [hloop] at h
    cases h
  | some bl =>
    rw [hloop] at h
    injection h with h'
    rw [← h']
    simp only [TempoEstimator.candidatePeriods]
    refine ⟨dedupFirst_nodup _ _ le_rfl, ?_, ?_⟩
    · exact dedupFirst_sublist _ _ le_rfl
    · exact mem_dedupFirst _ _ le_rfl

theorem logb_two_half : Real.logb 2 ((1 : ℝ) / 2) = -1 := by
  rw [show ((1 : ℝ) / 2) = 2⁻¹ by norm_num, Real.logb_inv, Real.logb_self_eq_one]
  all_goals norm_num

theorem logb_two_quarter : Real.logb 2 ((1 : ℝ) / 4) = -2 := by
  have h2 : Real.log 2 ≠ 0 := ne_of_gt (Real.log_pos (by norm_num))
  rw [show ((1 : ℝ) / 4) = 4⁻¹ by norm_num, Real.logb_inv, Real.logb,
    show (4 : ℝ) = 2 ^ 2 by norm_num, Real.log_pow]
  field_simp

theorem bpm_from_lag_one : bpm_from_lag 1 1 = 60 := by
  unfold bpm_from_lag
  norm_num

theorem bpm_from_lag_two : bpm_from_lag 2 1 = 30 := by
  unfold bpm_from_lag
  norm_num

theorem eval_w_111_1 : TempoEstimator.weightedAt [1, 1, 1] 1 1 2 1 = Real.exp (-(1 / 2)) := by
  unfold TempoEstimator.weightedAt
  rw [if_neg (by norm_num), bpm_from_lag_one, if_neg (by norm_num : ¬(60 : ℝ) ≤ 0)]
  rw [show ((60 : ℝ) / 120) = 1 / 2 by norm_num, logb_two_half]
  unfold TempoEstimator.autocorrAt
  norm_num [List.range_succ]

theorem eval_w_111_2 : TempoEstimator.weightedAt [1, 1, 1] 1 1 2 2 = Real.exp (-2) := by
  unfold TempoEstimator.weightedAt
  rw [if_neg (by norm_num), bpm_from_lag_two, if_neg (by norm_num : ¬(30 : ℝ) ≤ 0)]
  rw [show ((30 : ℝ) / 120) = 1 / 4 by norm_num, logb_two_quarter]
  unfold TempoEstimator.autocorrAt
  norm_num [List.range_succ]

theorem exp_neg_two_lt : Real.exp (-2) < Real.exp (-(1 / 2)) :=
  Real.exp_lt_exp.mpr (by norm_num)

theorem eval_argmax_111_1 :
    TempoEstimator.argmaxStep [1, 1, 1] 1 1 2 (1, none) 1 =
      (1, some (Real.exp (-(1 / 2)))) := by
  simp only [TempoEstimator.argmaxStep]
  rw [bpm_from_lag_one, if_neg (by norm_num : ¬(60 : ℝ) ≤ 0)]
  rw [eval_w_111_1]

theorem eval_argmax_111_2 :
    TempoEstimator.argmaxStep [1, 1, 1] 1 1 2 (1, some (Real.exp (-(1 / 2)))) 2 =
      (1, some (Real.exp (-(1 / 2)))) := by
  simp only [TempoEstimator.argmaxStep]
  rw [bpm_from_lag_two, if_neg (by norm_num : ¬(30 : ℝ) ≤ 0)]
  rw [eval_w_111_2, if_neg (not_lt.mpr exp_neg_two_lt.le)]

theorem eval_b0_111 : TempoEstimator.bestLagInit [1, 1, 1] 1 1 2 = 1 := by
  unfold TempoEstimator.bestLagInit
  rw [show lagList 1 2 = [1, 2] from by decide]
  rw [List.foldl_cons, eval_argmax_111_1, List.foldl_cons, eval_argmax_111_2, List.foldl_nil]

theorem eval_med_111 : TempoEstimator.medianWeighted [1, 1, 1] 1 1 2 = Real.exp (-(1 / 2)) := by
  unfold TempoEstimator.medianWeighted
  rw [show lagList 1 2 = [1, 2] from by decide]
  simp only [List.map_cons, List.map_nil, eval_w_111_1, eval_w_111_2]
  rw [show List.insertionSort (fun a b => a ≤ b) [Real.exp (-(1 / 2)), Real.exp (-2)] =
    [Real.exp (-2), Real.exp (-(1 / 2))] from ?_]
  · simp
  · simp only [List.insertionSort, List.orderedInsert]
    rw [if_neg (not_le.mpr exp_neg_two_lt)]

theorem eval_window_111_1 :
    TempoEstimator.windowStep (TempoEstimator.weightedAt [1, 1, 1] 1 1 2) none 1 =
      some (1, Real.exp (-(1 / 2))) := by
  simp only [TempoEstimator.windowStep]
  rw [eval_w_111_1]

theorem eval_window_111_2 :
    TempoEstimator.windowStep (TempoEstimator.weightedAt [1, 1, 1] 1 1 2)
      (some (1, Real.exp (-(1 / 2)))) 2 = some (1, Real.exp (-(1 / 2))) := by
  simp only [TempoEstimator.windowStep]
  rw [eval_w_111_2, if_neg (not_lt.mpr exp_neg_two_lt.le)]

theorem eval_step_111 :
    TempoEstimator.octaveStep (TempoEstimator.weightedAt [1, 1, 1] 1 1 2)
      (TempoEstimator.medianWeighted [1, 1, 1] 1 1 2) 1 2 1 = Sum.inr 1 := by
  simp only [TempoEstimator.octaveStep]
  rw [show (max 1 (1 / 2 - 2) : ℕ) = 1 from by decide,
    show (min 2 (1 / 2 + 2) : ℕ) = 2 from by decide]
  rw [show lagList 1 2 = [1, 2] from by decide]
  rw [List.foldl_cons, eval_window_111_1, List.foldl_cons, eval_window_111_2, List.foldl_nil]
  dsimp only
  rw [if_neg (by decide : ¬(1 : ℕ) < 1)]
  rw [if_neg]
  intro hand
  exact absurd hand.1 (by rw [eval_med_111]; exact lt_irrefl _)

theorem octaveLoop_succ (w : ℕ → ℝ) (median : ℝ) (minLag maxLag fuel bestLag : ℕ) :
    TempoEstimator.octaveLoop w median minLag maxLag (fuel + 1) bestLag =
      match TempoEstimator.octaveStep w median minLag maxLag bestLag with
      | Sum.inr final => some final
      | Sum.inl next => TempoEstimator.octaveLoop w median minLag maxLag fuel next := rfl

theorem eval_loop_111 :
    TempoEstimator.octaveLoop (TempoEstimator.weightedAt [1, 1, 1] 1 1 2)
      (TempoEstimator.medianWeighted [1, 1, 1] 1 1 2) 1 2 1 1 = some 1 := by
  have h1 := octaveLoop_succ (TempoEstimator.weightedAt [1, 1, 1] 1 1 2)
    (TempoEstimator.medianWeighted [1, 1, 1] 1 1 2) 1 2 0 1
  rw [eval_step_111] at h1
  exact h1

theorem estimateFuel_eval_111 :
    TempoEstimator.estimateFuel 1 [1, 1, 1] 1 1 30 60 =
      some { bpm := 60, period_frames := 1, candidate_periods := [1, 2] } := by
  have hfr : ((1 : ℤ) : ℝ) / ((1 : ℤ) : ℝ) = 1 := by norm_num
  have hminB : max (30 : ℝ) 1 = 30 := by norm_num
  have hmaxB : max (60 : ℝ) (30 + 1) = 60 := by norm_num
  have hminLag : TempoEstimator.searchMinLag 1 60 = 1 := by
    unfold TempoEstimator.searchMinLag
    norm_num
  have hmaxLag : TempoEstimator.searchMaxLag 3 1 30 = 2 := by
    unfold TempoEstimator.searchMaxLag
    norm_num
    decide
  have hlen : ([(1 : ℝ), 1, 1]).length = 3 := rfl
  simp only [TempoEstimator.estimateFuel, hfr, hminB, hmaxB, hlen]
  rw [if_neg (by norm_num), if_neg (by norm_num)]
  simp only [hminLag, hmaxLag]
  rw [if_neg (by norm_num)]
  rw [eval_b0_111]
  rw [eval_loop_111]
  dsimp only
  rw [bpm_from_lag_one]
  rw [if_neg (by norm_num : ¬((60 : ℝ) > 200 ∧ 2 * 1 ≤ 2))]
  unfold TempoEstimator.parabolic
  rw [if_pos (by norm_num : (1 : ℕ) ≤ 1 ∨ (2 : ℕ) ≤ 1)]
  unfold bpm_from_lag_f
  rw [if_neg (by norm_num)]
  have hcand : TempoEstimator.candidatePeriods 1 1 2 = [1, 2] := by
    unfold TempoEstimator.candidatePeriods
    rw [show (([1, 2 * 1, 3 * 1, 1 / 2, 1 / 3] : List ℕ).filter
      (fun c => decide (1 ≤ c ∧ c ≤ 2))) = [1, 2] from by decide]
    rw [dedupFirst, show ([2].filter (fun b => b != 1)) = [2] from rfl]
    rw [dedupFirst, show (List.filter (fun b => b != 2) []) = [] from rfl]
    rw [dedupFirst]
  rw [hcand]
  norm_num

/-- C1 witness: the main theorem applied to a concrete successful run
(constant envelope `[1,1,1]`, 1 Hz sample rate, hop 1, BPM range 30-60),
whose result has period 1 and candidate list `[1, 2]`. -/
theorem tempo_candidate_periods_ok_witness :
    ([1, 2] : List ℕ).Nodup ∧
    List.Sublist ([1, 2] : List ℕ)
      ([1, 2 * 1, 3 * 1, 1 / 2, 1 / 3].filter
        (fun c => decide (TempoEstimator.searchMinLag (((1 : ℤ) : ℝ) / ((1 : ℤ) : ℝ))
            (max 60 (max 30 1 + 1)) ≤ c ∧
          c ≤ TempoEstimator.searchMaxLag 3 (((1 : ℤ) : ℝ) / ((1 : ℤ) : ℝ)) (max 30 1)))) ∧
    ∀ c, c ∈ ([1, 2] : List ℕ) ↔
      c ∈ [1, 2 * 1, 3 * 1, 1 / 2, 1 / 3].filter
        (fun c => decide (TempoEstimator.searchMinLag (((1 : ℤ) : ℝ) / ((1 : ℤ) : ℝ))
            (max 60 (max 30 1 + 1)) ≤ c ∧
          c ≤ TempoEstimator.searchMaxLag 3 (((1 : ℤ) : ℝ) / ((1 : ℤ) : ℝ)) (max 30 1))) := by
  have h := tempo_candidate_periods_ok 1 [1, 1, 1] 1 1 30 60
    { bpm := 60, period_frames := 1, candidate_periods := [1, 2] }
    estimateFuel_eval_111 (by norm_num)
  simpa using h

theorem logb_two_eighth : Real.logb 2 ((1 : ℝ) / 8) = -3 := by
  have h2 : Real.log 2 ≠ 0 := ne_of_gt (Real.log_pos (by norm_num))
  rw [show ((1 : ℝ) / 8) = 8⁻¹ by norm_num, Real.logb_inv, Real.logb,
    show (8 : ℝ) = 2 ^ 3 by norm_num, Real.log_pow]
  field_simp

theorem bpm_from_lag_pos (lag : ℕ) (h : lag ≠ 0) : 0 < bpm_from_lag lag 1 := by
  unfold bpm_from_lag
  rw [if_neg (by push_neg; exact ⟨h, by norm_num⟩)]
  have hl : (0 : ℝ) < (lag : ℝ) := by exact_mod_cast Nat.pos_of_ne_zero h
  positivity

theorem weightedAt_zero_of_ac (onset : List ℝ) (fr : ℝ) (minLag maxLag lag : ℕ)
    (h : TempoEstimator.autocorrAt onset lag = 0) :
    TempoEstimator.weightedAt onset fr minLag maxLag lag = 0 := by
  simp only [TempoEstimator.weightedAt]
  split
  · rfl
  · split
    · rfl
    · rw [h, zero_mul]

theorem eval_ac_e4_1 :
    TempoEstimator.autocorrAt [1, 0, 0, 0, 1, 0, 0, 0, 1, 0, 0, 0] 1 = 0 := by
  unfold TempoEstimator.autocorrAt
  norm_num [List.range_succ]

theorem eval_ac_e4_2 :
    TempoEstimator.autocorrAt [1, 0, 0, 0, 1, 0, 0, 0, 1, 0, 0, 0] 2 = 0 := by
  unfold TempoEstimator.autocorrAt
  norm_num [List.range_succ]

theorem eval_ac_e4_3 :
    TempoEstimator.autocorrAt [1, 0, 0, 0, 1, 0, 0, 0, 1, 0, 0, 0] 3 = 0 := by
  unfold TempoEstimator.autocorrAt
  norm_num [List.range_succ]

theorem eval_ac_e4_4 :
    TempoEstimator.autocorrAt [1, 0, 0, 0, 1, 0, 0, 0, 1, 0, 0, 0] 4 = 1 / 4 := by
  unfold TempoEstimator.autocorrAt
  norm_num [List.range_succ]

theorem eval_ac_e4_5 :
    TempoEstimator.autocorrAt [1, 0, 0, 0, 1, 0, 0, 0, 1, 0, 0, 0] 5 = 0 := by
  unfold TempoEstimator.autocorrAt
  norm_num [List.range_succ]

theorem eval_ac_e4_6 :
    TempoEstimator.autocorrAt [1, 0, 0, 0, 1, 0, 0, 0, 1, 0, 0, 0] 6 = 0 := by
  unfold TempoEstimator.autocorrAt
  norm_num [List.range_succ]

theorem bpm_from_lag_four : bpm_from_lag 4 1 = 15 := by
  unfold bpm_from_lag
  norm_num

theorem eval_w_e4_4 :
    TempoEstimator.weightedAt [1, 0, 0, 0, 1, 0, 0, 0, 1, 0, 0, 0] 1 1 6 4 =
      1 / 4 * Real.exp (-(9 / 2)) := by
  unfold TempoEstimator.weightedAt
  rw [if_neg (by norm_num), bpm_from_lag_four, if_neg (by norm_num : ¬(15 : ℝ) ≤ 0)]
  rw [show ((15 : ℝ) / 120) = 1 / 8 by norm_num, logb_two_eighth]
  rw [eval_ac_e4_4]
  norm_num

theorem eval_w_e4_pos : 0 < 1 / 4 * Real.exp (-(9 / 2) : ℝ) := by positivity

theorem eval_argmax_e4_1 :
    TempoEstimator.argmaxStep [1, 0, 0, 0, 1, 0, 0, 0, 1, 0, 0, 0] 1 1 6 (1, none) 1 =
      (1, some 0) := by
  simp only [TempoEstimator.argmaxStep]
  rw [if_neg (not_le.mpr (bpm_from_lag_pos 1 (by decide)))]
  rw [weightedAt_zero_of_ac _ _ _ _ _ eval_ac_e4_1]

theorem eval_argmax_e4_2 :
    TempoEstimator.argmaxStep [1, 0, 0, 0, 1, 0, 0, 0, 1, 0, 0, 0] 1 1 6 (1, some 0) 2 =
      (1, some 0) := by
  simp only [TempoEstimator.argmaxStep]
  rw [if_neg (not_le.mpr (bpm_from_lag_pos 2 (by decide)))]
  rw [weightedAt_zero_of_ac _ _ _ _ _ eval_ac_e4_2, if_neg (lt_irrefl (0 : ℝ))]

theorem eval_argmax_e4_3 :
    TempoEstimator.argmaxStep [1, 0, 0, 0, 1, 0, 0, 0, 1, 0, 0, 0] 1 1 6 (1, some 0) 3 =
      (1, some 0) := by
  simp only [TempoEstimator.argmaxStep]
  rw [if_neg (not_le.mpr (bpm_from_lag_pos 3 (by decide)))]
  rw [weightedAt_zero_of_ac _ _ _ _ _ eval_ac_e4_3, if_neg (lt_irrefl (0 : ℝ))]

theorem eval_argmax_e4_4 :
    TempoEstimator.argmaxStep [1, 0, 0, 0, 1, 0, 0, 0, 1, 0, 0, 0] 1 1 6 (1, some 0) 4 =
      (4, some (1 / 4 * Real.exp (-(9 / 2)))) := by
  simp only [TempoEstimator.argmaxStep]
  rw [if_neg (not_le.mpr (bpm_from_lag_pos 4 (by decide)))]
  rw [eval_w_e4_4, if_pos eval_w_e4_pos]

theorem eval_argmax_e4_5 :
    TempoEstimator.argmaxStep [1, 0, 0, 0, 1, 0, 0, 0, 1, 0, 0, 0] 1 1 6
      (4, some (1 / 4 * Real.exp (-(9 / 2)))) 5 =
      (4, some (1 / 4 * Real.exp (-(9 / 2)))) := by
  simp only [TempoEstimator.argmaxStep]
  rw [if_neg (not_le.mpr (bpm_from_lag_pos 5 (by decide)))]
  rw [weightedAt_zero_of_ac _ _ _ _ _ eval_ac_e4_5, if_neg (not_lt.mpr eval_w_e4_pos.le)]

theorem eval_argmax_e4_6 :
    TempoEstimator.argmaxStep [1, 0, 0, 0, 1, 0, 0, 0, 1, 0, 0, 0] 1 1 6
      (4, some (1 / 4 * Real.exp (-(9 / 2)))) 6 =
      (4, some (1 / 4 * Real.exp (-(9 / 2)))) := by
  simp only [TempoEstimator.argmaxStep]
  rw [if_neg (not_le.mpr (bpm_from_lag_pos 6 (by decide)))]
  rw [weightedAt_zero_of_ac _ _ _ _ _ eval_ac_e4_6, if_neg (not_lt.mpr eval_w_e4_pos.le)]

theorem eval_b0_e4 :
    TempoEstimator.bestLagInit [1, 0, 0, 0, 1, 0, 0, 0, 1, 0, 0, 0] 1 1 6 = 4 := by
  unfold TempoEstimator.bestLagInit
  rw [show lagList 1 6 = [1, 2, 3, 4, 5, 6] from by decide]
  rw [List.foldl_cons, eval_argmax_e4_1, List.foldl_cons, eval_argmax_e4_2,
    List.foldl_cons, eval_argmax_e4_3, List.foldl_cons, eval_argmax_e4_4,
    List.foldl_cons, eval_argmax_e4_5, List.foldl_cons, eval_argmax_e4_6, List.foldl_nil]

theorem eval_med_e4 :
    TempoEstimator.medianWeighted [1, 0, 0, 0, 1, 0, 0, 0, 1, 0, 0, 0] 1 1 6 = 0 := by
  have hng : ¬(1 / 4 * Real.exp (-(9 / 2) : ℝ) ≤ 0) := not_le.mpr eval_w_e4_pos
  unfold TempoEstimator.medianWeighted
  rw [show lagList 1 6 = [1, 2, 3, 4, 5, 6] from by decide]
  simp only [List.map_cons, List.map_nil,
    weightedAt_zero_of_ac _ _ _ _ _ eval_ac_e4_1,
    weightedAt_zero_of_ac _ _ _ _ _ eval_ac_e4_2,
    weightedAt_zero_of_ac _ _ _ _ _ eval_ac_e4_3,
    weightedAt_zero_of_ac _ _ _ _ _ eval_ac_e4_5,
    weightedAt_zero_of_ac _ _ _ _ _ eval_ac_e4_6, eval_w_e4_4]
  rw [show List.insertionSort (fun a b => a ≤ b)
      [(0 : ℝ), 0, 0, 1 / 4 * Real.exp (-(9 / 2)), 0, 0] =
      [0, 0, 0, 0, 0, 1 / 4 * Real.exp (-(9 / 2))] from ?_]
  · simp
  · simp only [List.insertionSort, List.orderedInsert, le_refl, if_true, hng, if_false]

theorem eval_window_e4_1 :
    TempoEstimator.windowStep
      (TempoEstimator.weightedAt [1, 0, 0, 0, 1, 0, 0, 0, 1, 0, 0, 0] 1 1 6) none 1 =
      some (1, 0) := by
  simp only [TempoEstimator.windowStep]
  rw [weightedAt_zero_of_ac _ _ _ _ _ eval_ac_e4_1]

theorem eval_window_e4_2 :
    TempoEstimator.windowStep
      (TempoEstimator.weightedAt [1, 0, 0, 0, 1, 0, 0, 0, 1, 0, 0, 0] 1 1 6)
      (some (1, 0)) 2 = some (1, 0) := by
  simp only [TempoEstimator.windowStep]
  rw [weightedAt_zero_of_ac _ _ _ _ _ eval_ac_e4_2, if_neg (lt_irrefl (0 : ℝ))]

theorem eval_window_e4_3 :
    TempoEstimator.windowStep
      (TempoEstimator.weightedAt [1, 0, 0, 0, 1, 0, 0, 0, 1, 0, 0, 0] 1 1 6)
      (some (1, 0)) 3 = some (1, 0) := by
  simp only [TempoEstimator.windowStep]
  rw [weightedAt_zero_of_ac _ _ _ _ _ eval_ac_e4_3, if_neg (lt_irrefl (0 : ℝ))]

theorem eval_window_e4_4 :
    TempoEstimator.windowStep
      (TempoEstimator.weightedAt [1, 0, 0, 0, 1, 0, 0, 0, 1, 0, 0, 0] 1 1 6)
      (some (1, 0)) 4 = some (4, 1 / 4 * Real.exp (-(9 / 2))) := by
  simp only [TempoEstimator.windowStep]
  rw [eval_w_e4_4, if_pos eval_w_e4_pos]

/-- The octave-correction step at `best_lag = 4` on the period-4 impulse
train re-selects lag 4 itself: the window `[max(min_lag, 0), min(max_lag, 4)]`
contains 4, `weighted[4]` is the window maximum, exceeds the zero median,
and trivially exceeds half of itself.  The loop therefore never leaves
`best_lag = 4`. -/
theorem eval_step_e4 :
    TempoEstimator.octaveStep
      (TempoEstimator.weightedAt [1, 0, 0, 0, 1, 0, 0, 0, 1, 0, 0, 0] 1 1 6)
      (TempoEstimator.medianWeighted [1, 0, 0, 0, 1, 0, 0, 0, 1, 0, 0, 0] 1 1 6) 1 6 4 =
      Sum.inl 4 := by
  simp only [TempoEstimator.octaveStep]
  rw [show (max 1 (4 / 2 - 2) : ℕ) = 1 from by decide,
    show (min 6 (4 / 2 + 2) : ℕ) = 4 from by decide]
  rw [show lagList 1 4 = [1, 2, 3, 4] from by decide]
  rw [List.foldl_cons, eval_window_e4_1, List.foldl_cons, eval_window_e4_2,
    List.foldl_cons, eval_window_e4_3, List.foldl_cons, eval_window_e4_4, List.foldl_nil]
  dsimp only
  rw [if_neg (by decide : ¬(4 : ℕ) < 1)]
  rw [if_pos]
  constructor
  · rw [eval_med_e4]
    exact eval_w_e4_pos
  · rw [eval_w_e4_4]
    nlinarith [eval_w_e4_pos]

theorem octave_loop_diverges_e4 :
    ∀ fuel, TempoEstimator.octaveLoop
      (TempoEstimator.weightedAt [1, 0, 0, 0, 1, 0, 0, 0, 1, 0, 0, 0] 1 1 6)
      (TempoEstimator.medianWeighted [1, 0, 0, 0, 1, 0, 0, 0, 1, 0, 0, 0] 1 1 6)
      1 6 fuel 4 = none := by
  intro fuel
  induction fuel with
  | zero => rfl
  | succ n ih =>
    rw [octaveLoop_succ, eval_step_e4]
    exact ih

/-- C4 (code_bug): `TempoEstimator::estimate` does not terminate on every
input.  On the 12-frame period-4 impulse train with `sample_rate = 60`,
`hop_size = 60`, `min_bpm = 10`, `max_bpm = 60`, the octave-correction
loop reaches `best_lag = 4` and then re-selects lag 4 forever (see
`eval_step_e4`), so the fuelled embedding returns `none` for every fuel:
the loop's stop condition is never reached. -/
theorem tempo_estimate_diverges :
    ∀ fuel, TempoEstimator.estimateFuel fuel
      [1, 0, 0, 0, 1, 0, 0, 0, 1, 0, 0, 0] 60 60 10 60 = none := by
  intro fuel
  have hfr : ((60 : ℤ) : ℝ) / ((60 : ℤ) : ℝ) = 1 := by norm_num
  have hminB : max (10 : ℝ) 1 = 10 := by norm_num
  have hmaxB : max (60 : ℝ) (10 + 1) = 60 := by norm_num
  have hminLag : TempoEstimator.searchMinLag 1 60 = 1 := by
    unfold TempoEstimator.searchMinLag
    norm_num
  have hmaxLag : TempoEstimator.searchMaxLag 12 1 10 = 6 := by
    unfold TempoEstimator.searchMaxLag
    norm_num
    decide
  have hlen : ([(1 : ℝ), 0, 0, 0, 1, 0, 0, 0, 1, 0, 0, 0]).length = 12 := rfl
  simp only [TempoEstimator.estimateFuel, hfr, hminB, hmaxB, hlen]
  rw [if_neg (by norm_num), if_neg (by norm_num)]
  simp only [hminLag, hmaxLag]
  rw [if_neg (by norm_num)]
  rw [eval_b0_e4]
  rw [octave_loop_diverges_e4 fuel]

/-- C4 witness: the divergence theorem at fuel 7. -/
theorem tempo_estimate_diverges_witness :
    TempoEstimator.estimateFuel 7 [1, 0, 0, 0, 1, 0, 0, 0, 1, 0, 0, 0] 60 60 10 60 = none :=
  tempo_estimate_diverges 7

theorem tables_succ (onset : List ℝ) (period : ℕ) (alpha : ℝ) (n : ℕ) :
    BeatTracker.tables onset period alpha (n + 1) =
      ((BeatTracker.tables onset period alpha n).1 ++
        [(BeatTracker.bestStep onset period alpha (BeatTracker.tables onset period alpha n).1 n).1],
       (BeatTracker.tables onset period alpha n).2 ++
        [(BeatTracker.bestStep onset period alpha (BeatTracker.tables onset period alpha n).1 n).2]) :=
  rfl

theorem backtrack_succ (prevT : List (Option ℕ)) (fuel idx : ℕ) :
    BeatTracker.backtrack prevT (fuel + 1) idx =
      match prevT.getD idx none with
      | none => [idx]
      | some p => idx :: BeatTracker.backtrack prevT fuel p :=
  rfl

theorem tables_fst_length (onset : List ℝ) (period : ℕ) (alpha : ℝ) (n : ℕ) :
    (BeatTracker.tables onset period alpha n).1.length = n := by
  induction n with
  | zero => rfl
  | succ n ih => rw [tables_succ]; simp [ih]

theorem tables_snd_length (onset : List ℝ) (period : ℕ) (alpha : ℝ) (n : ℕ) :
    (BeatTracker.tables onset period alpha n).2.length = n := by
  induction n with
  | zero => rfl
  | succ n ih => rw [tables_succ]; simp [ih]

theorem mem_cands (minLag maxLag t p : ℕ) (h : p ∈ BeatTracker.cands minLag maxLag t) :
    p < t ∧ t - maxLag ≤ p ∧ p ≤ t - minLag := by
  simp only [BeatTracker.cands, List.mem_filter, List.mem_range, decide_eq_true_eq] at h
  tauto

theorem foldl_prev_mem (f : ℕ → ℝ) (l : List ℕ) :
    ∀ (init : ℝ × Option ℕ) (p : ℕ),
      (l.foldl (fun b q => if f q > b.1 then (f q, some q) else b) init).2 = some p →
      init.2 = some p ∨ p ∈ l := by
  induction l with
  | nil =>
    intro init p h
    exact Or.inl h
  | cons a t ih =>
    intro init p h
    rw [List.foldl_cons] at h
    rcases ih _ p h with h' | h'
    · by_cases hc : f a > init.1
      · rw [if_pos hc] at h'
        injection h' with h''
        exact Or.inr (h'' ▸ List.mem_cons_self a t)
      · rw [if_neg hc] at h'
        exact Or.inl h'
    · exact Or.inr (List.mem_cons_of_mem _ h')

theorem bestStep_prev (onset : List ℝ) (period : ℕ) (alpha : ℝ) (dp : List ℝ) (t p : ℕ)
    (h : (BeatTracker.bestStep onset period alpha dp t).2 = some p) :
    p ∈ BeatTracker.cands (BeatTracker.minLagOf period) (BeatTracker.maxLagOf period) t := by
  unfold BeatTracker.bestStep at h
  have hm := foldl_prev_mem
    (fun q => dp.getD q 0 + onset.getD t 0 - BeatTracker.pen alpha period (t - q)) _ _ _ h
  rcases hm with h' | h'
  · cases h'
  · exact h'

theorem tables_prev_mem (onset : List ℝ) (period : ℕ) (alpha : ℝ) :
    ∀ n t p, (BeatTracker.tables onset period alpha n).2.getD t none = some p →
      p ∈ BeatTracker.cands (BeatTracker.minLagOf period) (BeatTracker.maxLagOf period) t := by
  intro n
  induction n with
  | zero =>
    intro t p h
    simp [BeatTracker.tables, List.getD] at h
  | succ n ih =>
    intro t p h
    rw [tables_succ] at h
    rcases lt_trichotomy t n with ht | ht | ht
    · rw [List.getD_append _ _ _ _ (by rw [tables_snd_length]; exact ht)] at h
      exact ih t p h
    · subst ht
      rw [List.getD_append_right _ _ _ _ (by rw [tables_snd_length])] at h
      rw [tables_snd_length, Nat.sub_self] at h
      simp only [List.getD_cons_zero] at h
      exact bestStep_prev _ _ _ _ _ _ h
    · rw [List.getD_eq_default] at h
      · cases h
      · simp only [List.length_append, tables_snd_length, List.length_cons, List.length_nil]
        omega

theorem searchStart_lt (n : ℕ) (h : 0 < n) : BeatTracker.searchStart n < n := by
  unfold BeatTracker.searchStart
  omega

theorem bestEnd_lt (dp : List ℝ) (ss : ℕ) (h : ss < dp.length) :
    (BeatTracker.bestEnd dp ss).1 < dp.length := by
  unfold BeatTracker.bestEnd
  have hmem : ∀ t ∈ (List.range dp.length).drop ss, t < dp.length := by
    intro t ht
    have := List.mem_of_mem_drop ht
    exact List.mem_range.mp this
  refine List.foldlRecOn (motive := fun (b : ℕ × ℝ) => b.1 < dp.length) _ _ _ h ?_
  intro b hb t ht
  by_cases hc : dp.getD t 0 > b.2
  · rw [if_pos hc]
    exact hmem t ht
  · rw [if_neg hc]
    exact hb

theorem backtrack_props (prevT : List (Option ℕ))
    (hC : ∀ t p, prevT.getD t none = some p → p < t) :
    ∀ fuel idx, idx < fuel →
      ∃ L, BeatTracker.backtrack prevT fuel idx = idx :: L ∧
        List.Chain' (fun a b => prevT.getD a none = some b)
          (BeatTracker.backtrack prevT fuel idx) ∧
        ∀ x ∈ BeatTracker.backtrack prevT fuel idx, x ≤ idx := by
  intro fuel
  induction fuel with
  | zero =>
    intro idx h
    omega
  | succ n ih =>
    intro idx h
    cases hp : prevT.getD idx none with
    | none =>
      refine ⟨[], ?_, ?_, ?_⟩
      · simp only [backtrack_succ, hp]
      · simp only [backtrack_succ, hp]
        simp
      · simp only [backtrack_succ, hp]
        simp
    | some p =>
      have hplt : p < idx := hC idx p hp
      obtain ⟨L, hL, hchain, hle⟩ := ih p (by omega)
      refine ⟨p :: L, ?_, ?_, ?_⟩
      · simp only [backtrack_succ, hp]
        rw [hL]
      · simp only [backtrack_succ, hp]
        rw [hL]
        rw [hL] at hchain
        exact List.chain'_cons.mpr ⟨hp, hchain⟩
      · simp only [backtrack_succ, hp]
        rw [hL]
        intro x hx
        rcases List.mem_cons.mp hx with hx | hx
        · omega
        · have := hle x (hL ▸ hx)
          omega

theorem minLagOf_pos (period : ℕ) : 0 < BeatTracker.minLagOf period := by
  unfold BeatTracker.minLagOf
  omega

theorem maxLagOf_eq (period : ℕ) (h : 0 < period) :
    BeatTracker.maxLagOf period = 2 * period := by
  unfold BeatTracker.maxLagOf BeatTracker.minLagOf
  omega

theorem two_minLagOf_ge (period : ℕ) : period ≤ 2 * BeatTracker.minLagOf period := by
  unfold BeatTracker.minLagOf
  omega

theorem track_eq (onset : List ℝ) (period hop : ℕ) (alpha : ℝ)
    (h : ¬(period = 0 ∨ hop = 0 ∨ onset = [])) :
    BeatTracker.track onset period hop alpha =
      { beat_samples := ((BeatTracker.backtrack
          (BeatTracker.tables onset period alpha onset.length).2 onset.length
          (BeatTracker.bestEnd (BeatTracker.tables onset period alpha onset.length).1
            (BeatTracker.searchStart onset.length)).1).reverse).map (· * hop),
        score := (BeatTracker.bestEnd (BeatTracker.tables onset period alpha onset.length).1
          (BeatTracker.searchStart onset.length)).2 } := by
  unfold BeatTracker.track
  rw [if_neg h]

/-- C3 (amended): for every onset envelope, positive period and positive
hop size, the beat sequence of `BeatTracker::track` is strictly
increasing, every beat is `frame · hop_size` for a frame below the
envelope length, and every adjacent gap is at most `2 · period · hop`;
every gap is also at least `0.5 · period · hop` (stated integrally as
`period · hop ≤ 2 · gap`) except possibly a first gap starting at sample
0, where the clamped predecessor window `max(0, t - min_lag) = 0` admits
frame 0 as predecessor of a frame closer than `min_lag` (see the
counterexample). -/
theorem beat_tracker_invariants (onset : List ℝ) (period hop : ℕ) (alpha : ℝ)
    (hp : 0 < period) (hh : 0 < hop) :
    List.Chain' (· < ·) (BeatTracker.track onset period hop alpha).beat_samples ∧
    (∀ s ∈ (BeatTracker.track onset period hop alpha).beat_samples,
      ∃ f, f < onset.length ∧ s = f * hop) ∧
    List.Chain' (fun a b => b - a ≤ 2 * period * hop ∧ (a = 0 ∨ period * hop ≤ 2 * (b - a)))
      (BeatTracker.track onset period hop alpha).beat_samples := by
  by_cases h0 : period = 0 ∨ hop = 0 ∨ onset = []
  · unfold BeatTracker.track
    rw [if_pos h0]
    simp
  rw [track_eq onset period hop alpha h0]
  dsimp only
  have hne : onset ≠ [] := fun hc => h0 (Or.inr (Or.inr hc))
  have hnpos : 0 < onset.length := List.length_pos.mpr hne
  have hprevlt : ∀ t p',
      (BeatTracker.tables onset period alpha onset.length).2.getD t none = some p' →
      p' < t := by
    intro t p' hgp
    exact (mem_cands _ _ _ _ (tables_prev_mem onset period alpha onset.length t p' hgp)).1
  have hbelt : (BeatTracker.bestEnd (BeatTracker.tables onset period alpha onset.length).1
      (BeatTracker.searchStart onset.length)).1 < onset.length := by
    have h1 : BeatTracker.searchStart onset.length <
        (BeatTracker.tables onset period alpha onset.length).1.length := by
      rw [tables_fst_length]
      exact searchStart_lt onset.length hnpos
    have h2 := bestEnd_lt (BeatTracker.tables onset period alpha onset.length).1 _ h1
    rwa [tables_fst_length] at h2
  obtain ⟨L, hL, hchain, hle⟩ :=
    backtrack_props (BeatTracker.tables onset period alpha onset.length).2 hprevlt
      onset.length _ hbelt
  have hchainR : List.Chain'
      (fun a b => (BeatTracker.tables onset period alpha onset.length).2.getD b none = some a)
      (BeatTracker.backtrack (BeatTracker.tables onset period alpha onset.length).2
        onset.length
        (BeatTracker.bestEnd (BeatTracker.tables onset period alpha onset.length).1
          (BeatTracker.searchStart onset.length)).1).reverse := by
    rw [List.chain'_reverse]
    exact hchain
  have hmemB : ∀ x ∈ (BeatTracker.backtrack
      (BeatTracker.tables onset period alpha onset.length).2 onset.length
      (BeatTracker.bestEnd (BeatTracker.tables onset period alpha onset.length).1
        (BeatTracker.searchStart onset.length)).1).reverse, x < onset.length := by
    intro x hx
    have := hle x (List.mem_reverse.mp hx)
    omega
  have hpair : ∀ a b,
      (BeatTracker.tables onset period alpha onset.length).2.getD b none = some a →
      a < b ∧ b - a ≤ 2 * period ∧ (a = 0 ∨ period ≤ 2 * (b - a)) := by
    intro a b hab
    have hm := mem_cands _ _ _ _ (tables_prev_mem onset period alpha onset.length b a hab)
    have hmin := minLagOf_pos period
    have hmax := maxLagOf_eq period hp
    have h2min := two_minLagOf_ge period
    exact ⟨hm.1, by omega, by omega⟩
  refine ⟨?_, ?_, ?_⟩
  · rw [List.chain'_map]
    refine List.Chain'.imp ?_ hchainR
    intro a b hr
    exact (Nat.mul_lt_mul_right hh).mpr (hpair a b hr).1
  · intro s hs
    rw [List.mem_map] at hs
    obtain ⟨x, hx, rfl⟩ := hs
    exact ⟨x, hmemB x hx, rfl⟩
  · rw [List.chain'_map]
    refine List.Chain'.imp ?_ hchainR
    intro a b hr
    obtain ⟨hab, hub, hlb⟩ := hpair a b hr
    have hsub : b * hop - a * hop = (b - a) * hop := (Nat.sub_mul b a hop).symm
    constructor
    · rw [hsub]
      calc (b - a) * hop ≤ (2 * period) * hop := Nat.mul_le_mul_right hop hub
        _ = 2 * period * hop := rfl
    · rcases hlb with hz | hge
      · left
        rw [hz, Nat.zero_mul]
      · right
        rw [hsub]
        calc period * hop ≤ (2 * (b - a)) * hop := Nat.mul_le_mul_right hop hge
          _ = 2 * ((b - a) * hop) := by ring

/-- C3 witness: the amended invariants at a concrete input. -/
theorem beat_tracker_invariants_witness :
    List.Chain' (· < ·) (BeatTracker.track [0, 0] 3 1 680).beat_samples ∧
    (∀ s ∈ (BeatTracker.track [0, 0] 3 1 680).beat_samples,
      ∃ f, f < ([(0 : ℝ), 0]).length ∧ s = f * 1) ∧
    List.Chain' (fun a b => b - a ≤ 2 * 3 * 1 ∧ (a = 0 ∨ 3 * 1 ≤ 2 * (b - a)))
      (BeatTracker.track [0, 0] 3 1 680).beat_samples :=
  beat_tracker_invariants [0, 0] 3 1 680 (by decide) (by decide)

theorem log_three_lt : Real.log 3 < 1.2 := by
  have h3 : (0 : ℝ) < 3 := by norm_num
  rw [Real.log_lt_iff_lt_exp h3, show (1.2 : ℝ) = 1 + 0.2 by norm_num, Real.exp_add]
  have he1 := Real.exp_one_gt_d9
  have he2 : (1.2 : ℝ) ≤ Real.exp 0.2 := by
    have := Real.add_one_le_exp (0.2 : ℝ)
    linarith
  nlinarith [Real.exp_pos (0.2 : ℝ)]

theorem pen_680_3_1_lt : BeatTracker.pen 680 3 1 < 1000 := by
  unfold BeatTracker.pen
  rw [show (((1 : ℕ) : ℝ) / ((3 : ℕ) : ℝ)) = 3⁻¹ by norm_num, Real.log_inv]
  have h1 := log_three_lt
  have h2 := Real.log_pos (by norm_num : (1 : ℝ) < 3)
  nlinarith

theorem eval_bs_cex_0 :
    BeatTracker.bestStep [1000, 0] 3 680 [] 0 = (1000, none) := by
  unfold BeatTracker.bestStep
  rw [show BeatTracker.cands (BeatTracker.minLagOf 3) (BeatTracker.maxLagOf 3) 0 = []
    from by decide]
  rw [List.foldl_nil]
  rfl

theorem eval_tab_cex_1 :
    BeatTracker.tables [1000, 0] 3 680 1 = ([1000], [none]) := by
  rw [show (1 : ℕ) = 0 + 1 from rfl, tables_succ]
  rw [show BeatTracker.tables [1000, 0] 3 680 0 = ([], []) from rfl]
  rw [eval_bs_cex_0]
  rfl

theorem eval_bs_cex_1 :
    BeatTracker.bestStep [1000, 0] 3 680 [1000] 1 =
      ((1000 : ℝ) + 0 - BeatTracker.pen 680 3 1, some 0) := by
  unfold BeatTracker.bestStep
  rw [show BeatTracker.cands (BeatTracker.minLagOf 3) (BeatTracker.maxLagOf 3) 1 = [0]
    from by decide]
  rw [List.foldl_cons, List.foldl_nil]
  have hcond : [1000].getD 0 0 + [1000, 0].getD 1 0 - BeatTracker.pen 680 3 (1 - 0) >
      (([1000, 0] : List ℝ).getD 1 0, (none : Option ℕ)).1 := by
    show (1000 : ℝ) + 0 - BeatTracker.pen 680 3 1 > 0
    linarith [pen_680_3_1_lt]
  rw [if_pos hcond]
  rfl

theorem eval_tab_cex_2 :
    BeatTracker.tables [1000, 0] 3 680 2 =
      ([1000, (1000 : ℝ) + 0 - BeatTracker.pen 680 3 1],
       [none, some 0]) := by
  rw [show (2 : ℕ) = 1 + 1 from rfl, tables_succ, eval_tab_cex_1]
  rw [eval_bs_cex_1]
  rfl

/-- C3 (corrected), counterexample: on the envelope `[1000, 0]` with
`period_frames = 3`, `hop_size = 1` and the default `alpha = 680`, the
tracker returns beats `[0, 1]` whose gap 1 is below
`0.5 · period_frames · hop_size = 1.5`: the predecessor window of frame 1
clamps to `[0, 0]`, so frame 0 becomes its predecessor at lag
`1 < min_lag = 2`, and the chain score `1000 - 680 · ln(1/3)² ≈ 179`
beats the lone-beat score 0. -/
theorem beat_tracker_gap_cex :
    (BeatTracker.track [1000, 0] 3 1 680).beat_samples = [0, 1] ∧
      2 * (1 - 0) < 3 * 1 := by
  refine ⟨?_, by decide⟩
  rw [track_eq [1000, 0] 3 1 680 (by simp)]
  have hlen : ([(1000 : ℝ), 0]).length = 2 := rfl
  rw [hlen, eval_tab_cex_2]
  rw [show BeatTracker.searchStart 2 = 1 from by
    unfold BeatTracker.searchStart
    rw [show ((2 : ℕ) : ℚ) * (15099494 / 16777216 : ℚ) = 30198988 / 16777216 by norm_num]
    rw [show ⌊(30198988 / 16777216 : ℚ)⌋ = 1 by norm_num]
    rfl]
  have hbe : BeatTracker.bestEnd [1000, (1000 : ℝ) + 0 - BeatTracker.pen 680 3 1] 1 =
      (1, (1000 : ℝ) + 0 - BeatTracker.pen 680 3 1) := by
    unfold BeatTracker.bestEnd
    rw [show (List.range ([1000, (1000 : ℝ) + 0 - BeatTracker.pen 680 3 1]).length).drop 1 =
      [1] from rfl]
    rw [List.foldl_cons, List.foldl_nil]
    rw [if_neg (lt_irrefl _)]
    rfl
  rw [hbe]
  rw [show BeatTracker.backtrack [none, some 0] 2 1 = [1, 0] from by decide]
  decide

theorem candStep_skip (onset : List ℝ) (sr hop : ℤ) (primary : ℕ) (pbpm : ℝ)
    (st : CandState) (c : ℕ)
    (h : Pipeline.candBpm sr hop c / pbpm < 7 / 10 ∨
      Pipeline.candBpm sr hop c / pbpm > 13 / 10) :
    Pipeline.candStep onset sr hop primary pbpm st c = st := by
  unfold Pipeline.candStep
  rw [if_pos h]

theorem candStep_eq_of_not_skip (onset : List ℝ) (sr hop : ℤ) (P0 : ℕ) (pbpm : ℝ)
    (st : CandState) (c : ℕ)
    (h : ¬(Pipeline.candBpm sr hop c / pbpm < 7 / 10 ∨
      Pipeline.candBpm sr hop c / pbpm > 13 / 10)) :
    Pipeline.candStep onset sr hop P0 pbpm st c =
      if Pipeline.winsB (Pipeline.normScore (BeatTracker.track onset c hop.toNat 680))
          (Pipeline.candThreshold P0 c
            (if c = P0 then
              some (Pipeline.normScore (BeatTracker.track onset c hop.toNat 680))
             else st.primary_norm) st.best_score) then
        { best_period := c, beats := BeatTracker.track onset c hop.toNat 680,
          best_score := some (Pipeline.normScore (BeatTracker.track onset c hop.toNat 680)),
          primary_norm := (if c = P0 then
            some (Pipeline.normScore (BeatTracker.track onset c hop.toNat 680))
          else st.primary_norm) }
      else { st with primary_norm := (if c = P0 then
        some (Pipeline.normScore (BeatTracker.track onset c hop.toNat 680))
        else st.primary_norm) } := by
  unfold Pipeline.candStep
  rw [if_neg h]

theorem candThreshold_margin (P0 c : ℕ) (hne : c ≠ P0) (pn : ℝ) (bs : Option ℝ) :
    ∃ t, Pipeline.candThreshold P0 c (some pn) bs = some t ∧ pn * (105 / 100) ≤ t := by
  unfold Pipeline.candThreshold
  rw [if_pos hne]
  cases bs with
  | none => exact ⟨pn * (105 / 100), rfl, le_rfl⟩
  | some b => exact ⟨max b (pn * (105 / 100)), rfl, le_max_right _ _⟩

theorem candStep_inv (onset : List ℝ) (sr hop : ℤ) (P0 : ℕ) (pbpm : ℝ)
    (st : CandState) (c : ℕ)
    (h1 : st.primary_norm =
      some (Pipeline.normScore (BeatTracker.track onset P0 hop.toNat 680)))
    (h2 : st.best_period ≠ P0 →
      Pipeline.normScore (BeatTracker.track onset st.best_period hop.toNat 680) >
        Pipeline.normScore (BeatTracker.track onset P0 hop.toNat 680) * (105 / 100)) :
    (Pipeline.candStep onset sr hop P0 pbpm st c).primary_norm =
        some (Pipeline.normScore (BeatTracker.track onset P0 hop.toNat 680)) ∧
    ((Pipeline.candStep onset sr hop P0 pbpm st c).best_period ≠ P0 →
      Pipeline.normScore (BeatTracker.track onset
        (Pipeline.candStep onset sr hop P0 pbpm st c).best_period hop.toNat 680) >
        Pipeline.normScore (BeatTracker.track onset P0 hop.toNat 680) * (105 / 100)) := by
  by_cases hskip : Pipeline.candBpm sr hop c / pbpm < 7 / 10 ∨
      Pipeline.candBpm sr hop c / pbpm > 13 / 10
  · rw [candStep_skip _ _ _ _ _ _ _ hskip]
    exact ⟨h1, h2⟩
  rw [candStep_eq_of_not_skip _ _ _ _ _ _ _ hskip]
  have hprim : (if c = P0 then
      some (Pipeline.normScore (BeatTracker.track onset c hop.toNat 680))
      else st.primary_norm) =
      some (Pipeline.normScore (BeatTracker.track onset P0 hop.toNat 680)) := by
    by_cases hcp : c = P0
    · rw [if_pos hcp, hcp]
    · rw [if_neg hcp, h1]
  rw [hprim]
  by_cases hcp : c = P0
  · subst hcp
    split
    · exact ⟨rfl, fun hk => absurd rfl hk⟩
    · exact ⟨hprim ▸ rfl, h2⟩
  · obtain ⟨t, ht, hmar⟩ := candThreshold_margin P0 c hcp _ st.best_score
    rw [ht]
    by_cases hw : Pipeline.normScore (BeatTracker.track onset c hop.toNat 680) > t
    · rw [if_pos (by simp [Pipeline.winsB, hw])]
      refine ⟨rfl, fun _ => ?_⟩
      calc Pipeline.normScore (BeatTracker.track onset P0 hop.toNat 680) * (105 / 100)
          ≤ t := hmar
        _ < _ := hw
    · rw [if_neg (by simp [Pipeline.winsB, hw])]
      exact ⟨rfl, h2⟩

theorem candFold_inv (onset : List ℝ) (sr hop : ℤ) (P0 : ℕ) (pbpm : ℝ) :
    ∀ (l : List ℕ) (st : CandState),
      st.primary_norm =
        some (Pipeline.normScore (BeatTracker.track onset P0 hop.toNat 680)) →
      (st.best_period ≠ P0 →
        Pipeline.normScore (BeatTracker.track onset st.best_period hop.toNat 680) >
          Pipeline.normScore (BeatTracker.track onset P0 hop.toNat 680) * (105 / 100)) →
      (l.foldl (Pipeline.candStep onset sr hop P0 pbpm) st).primary_norm =
          some (Pipeline.normScore (BeatTracker.track onset P0 hop.toNat 680)) ∧
      ((l.foldl (Pipeline.candStep onset sr hop P0 pbpm) st).best_period ≠ P0 →
        Pipeline.normScore (BeatTracker.track onset
          (l.foldl (Pipeline.candStep onset sr hop P0 pbpm) st).best_period hop.toNat 680) >
          Pipeline.normScore (BeatTracker.track onset P0 hop.toNat 680) * (105 / 100)) := by
  intro l
  induction l with
  | nil =>
    intro st h1 h2
    exact ⟨h1, h2⟩
  | cons a t ih =>
    intro st h1 h2
    rw [List.foldl_cons]
    have hstep := candStep_inv onset sr hop P0 pbpm st a h1 h2
    exact ih _ hstep.1 hstep.2

theorem candStep_primary (onset : List ℝ) (sr hop : ℤ) (P0 : ℕ) (pbpm : ℝ)
    (hwin : ¬(Pipeline.candBpm sr hop P0 / pbpm < 7 / 10 ∨
      Pipeline.candBpm sr hop P0 / pbpm > 13 / 10)) :
    Pipeline.candStep onset sr hop P0 pbpm
      { best_period := P0, beats := { beat_samples := [], score := 0 },
        best_score := none, primary_norm := none } P0 =
      { best_period := P0, beats := BeatTracker.track onset P0 hop.toNat 680,
        best_score := some (Pipeline.normScore (BeatTracker.track onset P0 hop.toNat 680)),
        primary_norm :=
          some (Pipeline.normScore (BeatTracker.track onset P0 hop.toNat 680)) } := by
  rw [candStep_eq_of_not_skip _ _ _ _ _ _ _ hwin]
  simp only [eq_self_iff_true, if_true]
  rw [show Pipeline.candThreshold P0 P0
      (some (Pipeline.normScore (BeatTracker.track onset P0 hop.toNat 680))) none = none from by
    unfold Pipeline.candThreshold
    rw [if_neg (fun hk => hk rfl)]]
  rfl

/-- C5 (amended): in the candidate-evaluation block of `Pipeline::run`,
whenever the primary period heads the candidate list and its
`candidate_bpm / tempo.bpm` ratio lies inside `[0.7, 1.3]` (so the
primary is evaluated before any alternative), a non-primary winner must
have a per-beat normalised score above `1.05 ·` the primary's; candidates
whose ratio falls outside `[0.7, 1.3]` leave the loop state unchanged
(and hence the primary wins by default when no alternative passes); and
the returned BPM is recomputed from the winning period.  Without the
primary-in-window hypothesis the margin clause fails — see the
counterexample. -/
theorem pipeline_candidate_selection (onset : List ℝ) (sr hop : ℤ) (tempo : TempoResult)
    (rest : List ℕ)
    (hc : tempo.candidate_periods = tempo.period_frames :: rest)
    (hwin : ¬(Pipeline.candBpm sr hop tempo.period_frames / tempo.bpm < 7 / 10 ∨
      Pipeline.candBpm sr hop tempo.period_frames / tempo.bpm > 13 / 10)) :
    ((Pipeline.evalCandidates onset sr hop tempo).1.best_period ≠ tempo.period_frames →
      Pipeline.normScore (BeatTracker.track onset
        (Pipeline.evalCandidates onset sr hop tempo).1.best_period hop.toNat 680) >
      Pipeline.normScore (BeatTracker.track onset tempo.period_frames hop.toNat 680) *
        (105 / 100)) ∧
    (∀ (st : CandState) (c : ℕ),
      (Pipeline.candBpm sr hop c / tempo.bpm < 7 / 10 ∨
        Pipeline.candBpm sr hop c / tempo.bpm > 13 / 10) →
      Pipeline.candStep onset sr hop tempo.period_frames tempo.bpm st c = st) ∧
    ((Pipeline.evalCandidates onset sr hop tempo).2 =
      if 0 < (Pipeline.evalCandidates onset sr hop tempo).1.best_period then
        60 * ((sr : ℝ) / (hop : ℝ)) /
          ((Pipeline.evalCandidates onset sr hop tempo).1.best_period : ℝ)
      else tempo.bpm) := by
  have heval : (Pipeline.evalCandidates onset sr hop tempo).1 =
      rest.foldl (Pipeline.candStep onset sr hop tempo.period_frames tempo.bpm)
        (Pipeline.candStep onset sr hop tempo.period_frames tempo.bpm
          { best_period := tempo.period_frames, beats := { beat_samples := [], score := 0 },
            best_score := none, primary_norm := none } tempo.period_frames) := by
    unfold Pipeline.evalCandidates
    rw [hc, List.foldl_cons]
  refine ⟨?_, ?_, ?_⟩
  · intro hne
    rw [heval] at hne ⊢
    rw [candStep_primary onset sr hop tempo.period_frames tempo.bpm hwin] at hne ⊢
    have hinv := candFold_inv onset sr hop tempo.period_frames tempo.bpm rest
      { best_period := tempo.period_frames,
        beats := BeatTracker.track onset tempo.period_frames hop.toNat 680,
        best_score :=
          some (Pipeline.normScore (BeatTracker.track onset tempo.period_frames hop.toNat 680)),
        primary_norm :=
          some (Pipeline.normScore (BeatTracker.track onset tempo.period_frames hop.toNat 680)) }
      rfl (fun hk => absurd (rfl : tempo.period_frames = tempo.period_frames) hk)
    exact hinv.2 hne
  · intro st c hcond
    exact candStep_skip _ _ _ _ _ _ _ hcond
  · rfl

/-- C5 witness: the amended theorem at a concrete well-formed input
(primary period 1 heading the candidate list, primary BPM ratio 1). -/
theorem pipeline_candidate_selection_witness :
    ((Pipeline.evalCandidates [0, 0] 1 1 ⟨60, 1, [1, 2]⟩).1.best_period ≠ 1 →
      Pipeline.normScore (BeatTracker.track [0, 0]
        (Pipeline.evalCandidates [0, 0] 1 1 ⟨60, 1, [1, 2]⟩).1.best_period (1 : ℤ).toNat 680) >
      Pipeline.normScore (BeatTracker.track [0, 0] 1 (1 : ℤ).toNat 680) * (105 / 100)) ∧
    (∀ (st : CandState) (c : ℕ),
      (Pipeline.candBpm 1 1 c / 60 < 7 / 10 ∨ Pipeline.candBpm 1 1 c / 60 > 13 / 10) →
      Pipeline.candStep [0, 0] 1 1 1 60 st c = st) ∧
    ((Pipeline.evalCandidates [0, 0] 1 1 ⟨60, 1, [1, 2]⟩).2 =
      if 0 < (Pipeline.evalCandidates [0, 0] 1 1 ⟨60, 1, [1, 2]⟩).1.best_period then
        60 * (((1 : ℤ) : ℝ) / ((1 : ℤ) : ℝ)) /
          ((Pipeline.evalCandidates [0, 0] 1 1 ⟨60, 1, [1, 2]⟩).1.best_period : ℝ)
      else 60) :=
  pipeline_candidate_selection [0, 0] 1 1 ⟨60, 1, [1, 2]⟩ [2] rfl
    (by unfold Pipeline.candBpm; norm_num)

theorem searchStart_two : BeatTracker.searchStart 2 = 1 := by
  unfold BeatTracker.searchStart
  rw [show ((2 : ℕ) : ℚ) * (15099494 / 16777216 : ℚ) = 30198988 / 16777216 by norm_num]
  rw [show ⌊(30198988 / 16777216 : ℚ)⌋ = 1 by norm_num]
  rfl

theorem cands_one (m M : ℕ) (hM : 1 ≤ M) : BeatTracker.cands m M 1 = [0] := by
  unfold BeatTracker.cands
  rw [show List.range 1 = [0] from rfl]
  have h1 : 1 - M = 0 := by omega
  simp [h1]

theorem pen_nonneg (alpha : ℝ) (h : 0 ≤ alpha) (period lag : ℕ) :
    0 ≤ BeatTracker.pen alpha period lag := by
  unfold BeatTracker.pen
  positivity

/-- On the all-zero two-frame envelope, the tracker emits the single beat
at frame 1 with score 0, for every positive period (at hop 1). -/
theorem track_zero2 (p : ℕ) (hp : p ≠ 0) :
    BeatTracker.track [0, 0] p 1 680 = { beat_samples := [1], score := 0 } := by
  rw [track_eq [0, 0] p 1 680 (by simp [hp])]
  have hlen : ([(0 : ℝ), 0]).length = 2 := rfl
  rw [hlen]
  have hM : 1 ≤ BeatTracker.maxLagOf p := by
    unfold BeatTracker.maxLagOf BeatTracker.minLagOf
    omega
  have h0 : BeatTracker.bestStep [0, 0] p 680 [] 0 = (0, none) := by
    unfold BeatTracker.bestStep
    rw [show BeatTracker.cands (BeatTracker.minLagOf p) (BeatTracker.maxLagOf p) 0 = []
      from rfl]
    rw [List.foldl_nil]
    rfl
  have h1 : BeatTracker.bestStep [0, 0] p 680 [0] 1 = (0, none) := by
    unfold BeatTracker.bestStep
    rw [cands_one _ _ hM]
    rw [List.foldl_cons, List.foldl_nil]
    rw [if_neg]
    · rfl
    · show ¬((0 : ℝ) + 0 - BeatTracker.pen 680 p (1 - 0) > 0)
      have := pen_nonneg 680 (by norm_num) p (1 - 0)
      linarith
  have e1 := tables_succ [0, 0] p 680 0
  rw [show BeatTracker.tables [0, 0] p 680 0 = ([], []) from rfl, h0] at e1
  norm_num at e1
  have e2 := tables_succ [0, 0] p 680 1
  rw [e1, h1] at e2
  norm_num at e2
  rw [show (2 : ℕ) = 1 + 1 from rfl] at *
  rw [e2]
  rw [show BeatTracker.searchStart (1 + 1) = 1 from searchStart_two]
  have hbe : BeatTracker.bestEnd [(0 : ℝ), 0] 1 = (1, 0) := by
    unfold BeatTracker.bestEnd
    rw [show (List.range ([(0 : ℝ), 0]).length).drop 1 = [1] from rfl]
    rw [List.foldl_cons, List.foldl_nil, if_neg (lt_irrefl _)]
    rfl
  rw [hbe]
  rw [show BeatTracker.backtrack [none, none] (1 + 1) 1 = [1] from by decide]
  rfl

theorem normScore_single : Pipeline.normScore { beat_samples := [1], score := 0 } = 0 := by
  unfold Pipeline.normScore
  simp

/-- C5 (corrected), counterexample: at the block level, with a tempo
result whose `bpm` field (11) is not tied to `60·fr/period_frames`
(period 10 at 1 fps gives 6 BPM), the primary candidate is skipped by the
±30 % window, so the margin rule is never armed: candidate 5 (12 BPM,
inside the window) is selected over the primary although its per-beat
score (0) does not exceed `1.05 ×` the primary's per-beat score (0). -/
theorem pipeline_candidate_margin_cex :
    (Pipeline.evalCandidates [0, 0] 1 1 ⟨11, 10, [10, 20, 30, 5, 3]⟩).1.best_period = 5 ∧
    (Pipeline.evalCandidates [0, 0] 1 1 ⟨11, 10, [10, 20, 30, 5, 3]⟩).1.best_period ≠
      (⟨11, 10, [10, 20, 30, 5, 3]⟩ : TempoResult).period_frames ∧
    ¬(Pipeline.normScore (BeatTracker.track [0, 0] 5 1 680) >
      Pipeline.normScore (BeatTracker.track [0, 0] 10 1 680) * (105 / 100)) := by
  have h5 := track_zero2 5 (by decide)
  have h10 := track_zero2 10 (by decide)
  have hstep5 : Pipeline.candStep [0, 0] 1 1 10 11
      { best_period := 10, beats := { beat_samples := [], score := 0 },
        best_score := none, primary_norm := none } 5 =
      { best_period := 5, beats := { beat_samples := [1], score := 0 },
        best_score := some 0, primary_norm := none } := by
    rw [candStep_eq_of_not_skip _ _ _ _ _ _ _
      (by unfold Pipeline.candBpm; norm_num)]
    rw [show ((1 : ℤ)).toNat = 1 from rfl]
    rw [h5, normScore_single]
    rw [if_neg (by decide : ¬(5 : ℕ) = 10)]
    rw [show Pipeline.candThreshold 10 5 none none = none from by
      unfold Pipeline.candThreshold
      rw [if_pos (by decide : (5 : ℕ) ≠ 10)]]
    rw [show Pipeline.winsB 0 none = true from rfl]
    rw [if_pos rfl]
  have heval : (Pipeline.evalCandidates [0, 0] 1 1 ⟨11, 10, [10, 20, 30, 5, 3]⟩).1 =
      { best_period := 5, beats := { beat_samples := [1], score := 0 },
        best_score := some 0, primary_norm := none } := by
    unfold Pipeline.evalCandidates
    rw [show (⟨11, 10, [10, 20, 30, 5, 3]⟩ : TempoResult).candidate_periods =
      [10, 20, 30, 5, 3] from rfl]
    rw [List.foldl_cons,
      candStep_skip _ _ _ _ _ _ 10 (Or.inl (by unfold Pipeline.candBpm; norm_num))]
    rw [List.foldl_cons,
      candStep_skip _ _ _ _ _ _ 20 (Or.inl (by unfold Pipeline.candBpm; norm_num))]
    rw [List.foldl_cons,
      candStep_skip _ _ _ _ _ _ 30 (Or.inl (by unfold Pipeline.candBpm; norm_num))]
    rw [List.foldl_cons]
    rw [show (⟨11, 10, [10, 20, 30, 5, 3]⟩ : TempoResult).period_frames = 10 from rfl]
    rw [show (⟨11, 10, [10, 20, 30, 5, 3]⟩ : TempoResult).bpm = 11 from rfl]
    rw [hstep5]
    rw [List.foldl_cons,
      candStep_skip _ _ _ _ _ _ 3 (Or.inr (by unfold Pipeline.candBpm; norm_num))]
    rw [List.foldl_nil]
  refine ⟨?_, ?_, ?_⟩
  · rw [heval]
  · rw [heval]
    decide
  · rw [h5, h10, normScore_single]
    norm_num

theorem zscore_nil : OnsetDetector.zscore [] = [] := by
  unfold OnsetDetector.zscore
  rw [if_pos rfl]

theorem onset_compute_zero1 :
    OnsetDetector.compute ⟨[0], 1, 1⟩ =
      some { onset_strength := [], hop_size := 512, fft_size := 2048 } := by
  unfold OnsetDetector.compute
  rw [if_neg (by decide), if_neg (by decide), if_neg (by decide), if_neg (by decide)]
  rw [show (if 2048 ≤ ((⟨[0], 1, 1⟩ : AudioBuffer)).samples.length then
    1 + (((⟨[0], 1, 1⟩ : AudioBuffer)).samples.length - 2048) / 512 else 0) = 0 from by decide]
  show some ({ onset_strength := OnsetDetector.zscore [], hop_size := 512,
               fft_size := 2048 } : OnsetResult) =
    some ({ onset_strength := [], hop_size := 512, fft_size := 2048 } : OnsetResult)
  rw [zscore_nil]

theorem tempo_estimate_nil (fuel : ℕ) :
    TempoEstimator.estimateFuel fuel [] 1 512 60 180 = some TempoEstimator.emptyResult := by
  unfold TempoEstimator.estimateFuel
  rw [if_neg (by decide), if_pos (by decide)]

theorem evalCandidates_empty :
    Pipeline.evalCandidates [] 1 512 TempoEstimator.emptyResult =
      ({ best_period := 0, beats := { beat_samples := [], score := 0 },
         best_score := none, primary_norm := none }, 0) := by
  unfold Pipeline.evalCandidates TempoEstimator.emptyResult
  simp

theorem meter_detect_nil :
    MeterDetector.detect [] [] 512 1 0 =
      { time_signature := TimeSignature.FOUR_FOUR, beats_per_measure := 4,
        downbeat_phase := 0, confidence := 0, downbeat_samples := [] } := by
  unfold MeterDetector.detect
  rw [if_pos (by decide)]
  norm_num [MeterDetector.extract_downbeats]

theorem key_detect_zero1 :
    KeyDetector.detect ⟨[0], 1, 1⟩ =
      some { root := 0, is_major := true, correlation := 0, confidence := 0 } := by
  have hchroma : KeyDetector.compute_chromagram ⟨[0], 1, 1⟩ = List.replicate 12 0 := by
    unfold KeyDetector.compute_chromagram
    rw [if_pos (by decide)]
  unfold KeyDetector.detect
  rw [if_neg (by decide), if_neg (by decide)]
  rw [hchroma]
  simp only [pearson_zero_left]
  rw [show List.range 12 = 0 :: [1, 2, 3, 4, 5, 6, 7, 8, 9, 10, 11] from by decide]
  rw [List.foldl_cons]
  have hfirst : KeyDetector.rankStep
      (KeyDetector.rankStep ((-2 : ℝ), (-2 : ℝ), 0, true) 0 0 true) 0 0 false =
      ((0 : ℝ), (0 : ℝ), 0, true) := by
    unfold KeyDetector.rankStep
    norm_num
  rw [hfirst, rank_fold_fixed]
  norm_num

/-- The full analysis on a degenerate one-sample mono buffer: the onset
envelope is empty, the tempo estimator returns the empty result, no beats
are produced, and the meter/key sentinels are aggregated. -/
theorem runAnalysis_zero1 :
    Pipeline.runAnalysis 0 ⟨[0], 1, 1⟩ 60 180 =
      some { bpm := 0, beat_samples := [],
             meter := { time_signature := TimeSignature.FOUR_FOUR, beats_per_measure := 4,
                        downbeat_phase := 0, confidence := 0, downbeat_samples := [] },
             key := { root := 0, is_major := true, correlation := 0, confidence := 0 } } := by
  have hmono : AudioBuffer.to_mono ⟨[0], 1, 1⟩ = ⟨[0], 1, 1⟩ := by
    unfold AudioBuffer.to_mono
    rw [if_pos (by decide)]
  simp only [Pipeline.runAnalysis, hmono, onset_compute_zero1, Nat.cast_ofNat,
    tempo_estimate_nil, evalCandidates_empty, key_detect_zero1, meter_detect_nil]

/-- C2 (confirmed; spec-modelled controller, see `Pipeline.runAnalysis`):
whenever the controller succeeds it has run `KeyDetector::detect` on the
downmixed mono buffer and its result is the aggregate's `key` field, and
the aggregate's `bpm`, `beat_samples` and `meter` fields are exactly the
candidate-evaluation BPM, the winning beat list, and the meter detected
on that beat list. -/
theorem pipeline_returns_aggregate (fuel : ℕ) (input : AudioBuffer) (min_bpm max_bpm : ℝ)
    (r : PipelineResult)
    (h : Pipeline.runAnalysis fuel input min_bpm max_bpm = some r) :
    KeyDetector.detect input.to_mono = some r.key ∧
    ∃ onset tempo,
      OnsetDetector.compute input.to_mono = some onset ∧
      TempoEstimator.estimateFuel fuel onset.onset_strength input.to_mono.sample_rate
        onset.hop_size min_bpm max_bpm = some tempo ∧
      r.bpm = (Pipeline.evalCandidates onset.onset_strength input.to_mono.sample_rate
        onset.hop_size tempo).2 ∧
      r.beat_samples = (Pipeline.evalCandidates onset.onset_strength input.to_mono.sample_rate
        onset.hop_size tempo).1.beats.beat_samples ∧
      r.meter = MeterDetector.detect r.beat_samples onset.onset_strength onset.hop_size
        input.to_mono.sample_rate r.bpm := by
  simp only [Pipeline.runAnalysis] at h
  split at h
  · cases h
  rename_i onset ho
  split at h
  · cases h
  rename_i tempo ht
  split at h
  · cases h
  rename_i key hk
  injection h with h'
  refine ⟨?_, onset, tempo, ho, ht, ?_, ?_, ?_⟩
  · rw [hk, ← h']
  · rw [← h']
  · rw [← h']
  · rw [← h']

/-- C2 witness: the aggregate theorem applied to the degenerate
one-sample run. -/
theorem pipeline_returns_aggregate_witness :
    KeyDetector.detect (AudioBuffer.to_mono ⟨[0], 1, 1⟩) =
      some { root := 0, is_major := true, correlation := 0, confidence := 0 } ∧
    ∃ onset tempo,
      OnsetDetector.compute (AudioBuffer.to_mono ⟨[0], 1, 1⟩) = some onset ∧
      TempoEstimator.estimateFuel 0 onset.onset_strength
        (AudioBuffer.to_mono ⟨[0], 1, 1⟩).sample_rate onset.hop_size 60 180 = some tempo ∧
      (0 : ℝ) = (Pipeline.evalCandidates onset.onset_strength
        (AudioBuffer.to_mono ⟨[0], 1, 1⟩).sample_rate onset.hop_size tempo).2 ∧
      ([] : List ℕ) = (Pipeline.evalCandidates onset.onset_strength
        (AudioBuffer.to_mono ⟨[0], 1, 1⟩).sample_rate onset.hop_size
          tempo).1.beats.beat_samples ∧
      ({ time_signature := TimeSignature.FOUR_FOUR, beats_per_measure := 4,
         downbeat_phase := 0, confidence := 0, downbeat_samples := [] } : MeterResult) =
        MeterDetector.detect [] onset.onset_strength onset.hop_size
          (AudioBuffer.to_mono ⟨[0], 1, 1⟩).sample_rate 0 :=
  pipeline_returns_aggregate 0 ⟨[0], 1, 1⟩ 60 180
    { bpm := 0, beat_samples := [],
      meter := { time_signature := TimeSignature.FOUR_FOUR, beats_per_measure := 4,
                 downbeat_phase := 0, confidence := 0, downbeat_samples := [] },
      key := { root := 0, is_major := true, correlation := 0, confidence := 0 } }
    runAnalysis_zero1

end
